import Mathlib

/-!
# A shallow embedding of the Cortex chess engine core

This file translates the core of the Cortex chess engine (bitboard position
representation, Zobrist hashing, make/unmake, move generation, transposition
table, static evaluation and the alpha-beta search) into Lean definitions and
proves or refutes the specification's claims about it.

Machine 64-bit words are modelled as `Nat` values below `2 ^ 64`; every
operation that can overflow masks with `0xFFFFFFFFFFFFFFFF`, mirroring the
C `unsigned long long` arithmetic of the source.
-/

set_option maxRecDepth 100000

namespace Cortex

/-- The 64-bit mask, `2 ^ 64 - 1`. -/
def M64 : Nat := 0xFFFFFFFFFFFFFFFF

/-- defs.h `GET_BB`: the bitboard with exactly the bit `index` set. -/
def GET_BB (index : Nat) : Nat := 1 <<< index

/-- Fuel-driven helper for `CNT_BITS`. -/
def popcountAux : Nat → Nat → Nat
  | 0, _ => 0
  | f + 1, n => if n = 0 then 0 else n % 2 + popcountAux f (n / 2)

/-- defs.h `CNT_BITS`: population count of a 64-bit word. -/
def CNT_BITS (bb : Nat) : Nat := popcountAux 64 bb

/-- Fuel-driven helper computing the index of the least significant set bit. -/
def lsbAux : Nat → Nat → Nat
  | 0, _ => 0
  | f + 1, n => if n % 2 = 1 then 0 else 1 + lsbAux f (n / 2)

/-- Index of the least significant set bit of `bb` (the value
`__builtin_ffsll(bb) - 1` computed by defs.h `POP_BIT` for nonzero `bb`). -/
def lsbIdx (bb : Nat) : Nat := lsbAux 64 bb

/-- defs.h `POP_BIT`: returns the index of the least significant set bit
together with the bitboard with that bit cleared. -/
def POP_BIT (bb : Nat) : Nat × Nat :=
  let i := lsbIdx bb
  (i, bb ^^^ GET_BB i)

/-- The list of set-bit indices of `bb` in the order defs.h `POP_BIT` pops
them (least significant first), as produced by the source's counted
`for`/`POP_BIT` loops. -/
def bitsAux : Nat → Nat → List Nat
  | 0, _ => []
  | f + 1, n =>
    if n = 0 then []
    else
      let p := POP_BIT n
      p.1 :: bitsAux f p.2

/-- All set bits of a 64-bit word, in pop order. -/
def bits64 (bb : Nat) : List Nat := bitsAux 64 bb

/-- defs.h `GET_FILE`: file (1..8) of a LERF square index. -/
def GET_FILE (index : Nat) : Nat := index % 8 + 1

/-- defs.h `GET_RANK`: rank (1..8) of a LERF square index. -/
def GET_RANK (index : Nat) : Nat := index / 8 + 1

/-- defs.h `B_FILE`: file masks, indexed 0 (empty) and 1..8 = files a..h. -/
def B_FILE : List Nat :=
  [0x0000000000000000, 0x0101010101010101, 0x0202020202020202,
   0x0404040404040404, 0x0808080808080808, 0x1010101010101010,
   0x2020202020202020, 0x4040404040404040, 0x8080808080808080]

/-- defs.h `B_RANK`: rank masks, indexed 0 (empty) and 1..8 = ranks 1..8. -/
def B_RANK : List Nat :=
  [0x0000000000000000, 0x00000000000000ff, 0x000000000000ff00,
   0x0000000000ff0000, 0x00000000ff000000, 0x000000ff00000000,
   0x0000ff0000000000, 0x00ff000000000000, 0xff00000000000000]

/-- List lookup with default `0`, used for all the source's constant arrays. -/
def nthBB (l : List Nat) (i : Nat) : Nat := l.getD i 0

/-- defs.h `FLIPV`: the vertical-flip square permutation table. -/
def FLIPV : List Nat :=
  [56, 57, 58, 59, 60, 61, 62, 63,
   48, 49, 50, 51, 52, 53, 54, 55,
   40, 41, 42, 43, 44, 45, 46, 47,
   32, 33, 34, 35, 36, 37, 38, 39,
   24, 25, 26, 27, 28, 29, 30, 31,
   16, 17, 18, 19, 20, 21, 22, 23,
    8,  9, 10, 11, 12, 13, 14, 15,
    0,  1,  2,  3,  4,  5,  6,  7]

/-! ## Zobrist keys (hash.cpp)

`init_hash` fills the key tables from `std::mt19937_64` seeded with 42.  The
Mersenne Twister is reproduced below exactly as specified for
`std::mt19937_64` (w=64, n=312, m=156, r=31). -/

/-- One step of the mt19937_64 seeding recurrence. -/
def mtSeedStep (prev i : Nat) : Nat :=
  (6364136223846793005 * (prev ^^^ (prev >>> 62)) + i) &&& M64

/-- Builds seeding states `x[i] .. x[i+f-1]` given `x[i-1] = prev`. -/
def mtSeedAux : Nat → Nat → Nat → List Nat
  | 0, _, _ => []
  | f + 1, prev, i =>
    let x := mtSeedStep prev i
    x :: mtSeedAux f x (i + 1)

/-- The initial 312-word mt19937_64 state for a seed. -/
def mtInit (seed : Nat) : List Nat := seed :: mtSeedAux 311 seed 1

/-- One in-place update of the mt19937_64 twist at position `i`. -/
def mtTwistStep (st : List Nat) (i : Nat) : List Nat :=
  let x := (nthBB st i &&& 0xFFFFFFFF80000000) |||
           (nthBB st ((i + 1) % 312) &&& 0x7FFFFFFF)
  let xA := if x % 2 = 1 then (x >>> 1) ^^^ 0xB5026F5AA96619E9 else x >>> 1
  st.set i (nthBB st ((i + 156) % 312) ^^^ xA)

/-- The full mt19937_64 twist (all 312 positions, in place). -/
def mtTwist (st : List Nat) : List Nat :=
  (List.range 312).foldl mtTwistStep st

/-- The mt19937_64 tempering transform. -/
def mtTemper (y : Nat) : Nat :=
  let y := y ^^^ ((y >>> 29) &&& 0x5555555555555555)
  let y := y ^^^ ((y <<< 17) &&& 0x71D67FFFEDA60000)
  let y := y ^^^ ((y <<< 37) &&& 0xFFF7EEE000000000)
  y ^^^ (y >>> 43)

/-- Produces `c` outputs of mt19937_64 from state `st` at cursor `idx`. -/
def mtGenAux : Nat → List Nat → Nat → List Nat
  | 0, _, _ => []
  | c + 1, st, idx =>
    if idx ≥ 312 then
      let st' := mtTwist st
      mtTemper (nthBB st' 0) :: mtGenAux c st' 1
    else
      mtTemper (nthBB st idx) :: mtGenAux c st (idx + 1)

/-- The first 849 outputs of `std::mt19937_64` seeded with 42, in the order
hash.cpp `init_hash` consumes them: `PIECE_KEYS[0][0] .. PIECE_KEYS[12][63]`,
then `SIDE_KEY`, then `CASTLE_KEYS[0] .. CASTLE_KEYS[15]`. -/
def ZOB_STREAM : List Nat := mtGenAux 849 (mtInit 42) 312

/-- hash.cpp `PIECE_KEYS[13][64]` (index 12 holds the en-passant keys). -/
def PIECE_KEYS (piece index : Nat) : Nat := ZOB_STREAM.getD (piece * 64 + index) 0

/-- hash.cpp `SIDE_KEY`. -/
def SIDE_KEY : Nat := ZOB_STREAM.getD 832 0

/-- hash.cpp `CASTLE_KEYS[16]`. -/
def CASTLE_KEYS (cp : Nat) : Nat := ZOB_STREAM.getD (833 + cp) 0

/-! ## Moves (move.h)

A move is a packed 32-bit word: bits 0..5 from-square, 6..11 to-square,
12..15 captured piece, 16 en-passant flag, 17..20 promoted piece,
21 pawn-start flag, 22 castling flag. -/

def MFLAGEP : Nat := 0x10000
def MFLAGPS : Nat := 0x200000
def MFLAGCA : Nat := 0x400000

def DEP_CELL (move : Nat) : Nat := move &&& 0x3f
def DST_CELL (move : Nat) : Nat := (move >>> 6) &&& 0x3f
def CAPTURED (move : Nat) : Nat := (move >>> 12) &&& 0xf
def PROMOTED (move : Nat) : Nat := (move >>> 17) &&& 0xf
def IS_CAP (move : Nat) : Bool := CAPTURED move ≠ 14
def IS_ENPAS_CAP (move : Nat) : Bool := move &&& 0x10000 ≠ 0
def IS_PROM (move : Nat) : Bool := PROMOTED move ≠ 14
def IS_PSTR (move : Nat) : Bool := move &&& 0x200000 ≠ 0
def IS_CAS (move : Nat) : Bool := move &&& 0x400000 ≠ 0

def GET_MOVE (dep dst cap_piece prom_piece flag : Nat) : Nat :=
  dep ||| (dst <<< 6) ||| (cap_piece <<< 12) ||| (prom_piece <<< 17) ||| flag

/-! ## Data structures (board.h, hash_table.h)

Piece indices follow the source's standard convention:
0 wP, 1 wR, 2 wN, 3 wB, 4 wQ, 5 wK, 6 bP, 7 bR, 8 bN, 9 bB, 10 bQ, 11 bK,
12 all white, 13 all black, 14 empty.  `WHITE` is `true`.
`NO_SQ` is 64, `NO_MOVE` is 0.

The history vector is stored most-recent-first (a `push_back` is a cons,
`back` is the head, `pop_back` drops the head); the 12×64 history heuristic
and the 2×64 killer tables are stored as flat lists indexed by
`piece * 64 + square` and `slot * 64 + ply`. -/

/-- board.h `UndoMove`. -/
structure UndoMove where
  move : Nat
  castle_perm : Nat
  en_pas_sq : Nat
  fifty : Nat
  hash_key : Nat
  deriving DecidableEq

/-- hash_table.h `TableEntry`. -/
structure TableEntry where
  hash_key : Nat
  move : Nat
  score : Int
  depth : Nat
  flag : Nat
  deriving DecidableEq

/-- hash_table.h flag values: `TFALPHA = 1, TFBETA, TFEXACT`. -/
def TFALPHA : Nat := 1
def TFBETA : Nat := 2
def TFEXACT : Nat := 3

/-- hash_table.h `TranspositionTable`. -/
structure TranspositionTable where
  t_entry : List TableEntry
  num_entries : Nat
  deriving DecidableEq

/-- board.h `Board`. -/
structure Board where
  side : Bool
  ply : Nat
  his_ply : Nat
  castle_perm : Nat
  en_pas_sq : Nat
  fifty : Nat
  hash_key : Nat
  history : List UndoMove
  chessboard : List Nat
  t_table : TranspositionTable
  pv_array : List Nat
  search_history : List Nat
  search_killers : List Nat
  deriving DecidableEq

/-- Reads bitboard `i` of the 14-element `chessboard` array. -/
def cb (b : Board) (i : Nat) : Nat := b.chessboard.getD i 0

/-! ## Hash helpers (hash.h) -/

/-- hash.h `HASH_PIECE`. -/
def hashPiece (b : Board) (piece_type index : Nat) : Board :=
  { b with hash_key := b.hash_key ^^^ PIECE_KEYS piece_type index }

/-- hash.h `HASH_SIDE`. -/
def hashSide (b : Board) : Board :=
  { b with hash_key := b.hash_key ^^^ SIDE_KEY }

/-- hash.h `HASH_CA`. -/
def hashCA (b : Board) : Board :=
  { b with hash_key := b.hash_key ^^^ CASTLE_KEYS b.castle_perm }

/-- hash.h `HASH_EP` (a no-op when there is no en-passant square). -/
def hashEP (b : Board) : Board :=
  if b.en_pas_sq ≠ 64 then
    { b with hash_key := b.hash_key ^^^ PIECE_KEYS 12 b.en_pas_sq }
  else b

/-! ## Piece placement primitives (board.cpp) -/

/-- board.cpp `determine_type`: the piece kind occupying the single-bit
board `bit_chk`, or 14 (EMPTY). -/
def determineType (b : Board) (bit_chk : Nat) : Nat :=
  if bit_chk &&& cb b 12 ≠ 0 then
    (((List.range 6).find? fun i => bit_chk &&& cb b i ≠ 0).getD 14)
  else if bit_chk &&& cb b 13 ≠ 0 then
    ((((List.range 6).find? fun i => bit_chk &&& cb b (6 + i) ≠ 0).map (6 + ·)).getD 14)
  else 14

/-- The chessboard-array effect of board.cpp `spawn_piece`: set the bit on
the piece's own board and on its colour aggregate. -/
def spawnCB (l : List Nat) (piece_type index : Nat) : List Nat :=
  let cell_bb := GET_BB index
  let l := l.set piece_type (l.getD piece_type 0 ||| cell_bb)
  if piece_type ≤ 5 then l.set 12 (l.getD 12 0 ||| cell_bb)
  else l.set 13 (l.getD 13 0 ||| cell_bb)

/-- The chessboard-array effect of board.cpp `obliterate_piece`: xor the bit
off the piece's own board and its colour aggregate. -/
def oblCB (l : List Nat) (piece_type index : Nat) : List Nat :=
  let cell_bb := GET_BB index
  let l := l.set piece_type (l.getD piece_type 0 ^^^ cell_bb)
  if piece_type ≤ 5 then l.set 12 (l.getD 12 0 ^^^ cell_bb)
  else l.set 13 (l.getD 13 0 ^^^ cell_bb)

/-- board.cpp `spawn_piece`. -/
def spawnPiece (b : Board) (piece_type index : Nat) : Board :=
  { b with hash_key := b.hash_key ^^^ PIECE_KEYS piece_type index,
           chessboard := spawnCB b.chessboard piece_type index }

/-- board.cpp `obliterate_piece`. -/
def obliteratePiece (b : Board) (piece_type index : Nat) : Board :=
  { b with hash_key := b.hash_key ^^^ PIECE_KEYS piece_type index,
           chessboard := oblCB b.chessboard piece_type index }

/-- board.cpp `move_piece_tu` (piece type unknown, determined on the spot). -/
def movePieceTu (b : Board) (dep_cell dst_cell : Nat) : Board :=
  let piece_type := determineType b (GET_BB dep_cell)
  spawnPiece (obliteratePiece b piece_type dep_cell) piece_type dst_cell

/-- board.cpp `move_piece_tk` (piece type known). -/
def movePieceTk (b : Board) (piece_type dep_cell dst_cell : Nat) : Board :=
  spawnPiece (obliteratePiece b piece_type dep_cell) piece_type dst_cell

/-! ## Lookup tables

The sliding-ray tables are computed exactly as by sliding_lookupgen.cc:
shift the square's bit up to seven steps along the ray and clip to the
file band (diagonals), the file (verticals) or the rank (horizontals)
so that shifts never wrap around a board edge. -/

/-- Union of the masks of files `lo..hi` (1 = a, 8 = h). -/
def fileBand (lo hi : Nat) : Nat :=
  (List.range 9).foldl (fun acc f => if lo ≤ f ∧ f ≤ hi then acc ||| nthBB B_FILE f else acc) 0

/-- Ors together `bb` shifted left by each listed amount (64-bit wrap). -/
def shlOr (bb : Nat) (ks : List Nat) : Nat :=
  ks.foldl (fun acc k => acc ||| ((bb <<< k) &&& M64)) 0

/-- Ors together `bb` shifted right by each listed amount. -/
def shrOr (bb : Nat) (ks : List Nat) : Nat :=
  ks.foldl (fun acc k => acc ||| (bb >>> k)) 0

/-- lookup_tables `LINE_N_LT` (sliding_lookupgen.cc `n_rook`). -/
def LINE_N_LT (i : Nat) : Nat :=
  shlOr (GET_BB i) [8, 16, 24, 32, 40, 48, 56] &&& nthBB B_FILE (GET_FILE i)

/-- lookup_tables `LINE_S_LT` (sliding_lookupgen.cc `s_rook`). -/
def LINE_S_LT (i : Nat) : Nat :=
  shrOr (GET_BB i) [8, 16, 24, 32, 40, 48, 56] &&& nthBB B_FILE (GET_FILE i)

/-- lookup_tables `LINE_E_LT` (sliding_lookupgen.cc `e_rook`). -/
def LINE_E_LT (i : Nat) : Nat :=
  shlOr (GET_BB i) [1, 2, 3, 4, 5, 6, 7] &&& nthBB B_RANK (GET_RANK i)

/-- lookup_tables `LINE_W_LT` (sliding_lookupgen.cc `w_rook`). -/
def LINE_W_LT (i : Nat) : Nat :=
  shrOr (GET_BB i) [1, 2, 3, 4, 5, 6, 7] &&& nthBB B_RANK (GET_RANK i)

/-- lookup_tables `DIAG_NE_LT` (sliding_lookupgen.cc `ne_bishop`):
clipped to the files east of (and including) the square's file. -/
def DIAG_NE_LT (i : Nat) : Nat :=
  shlOr (GET_BB i) [9, 18, 27, 36, 45, 54, 63] &&& fileBand (GET_FILE i) 8

/-- lookup_tables `DIAG_NW_LT` (sliding_lookupgen.cc `nw_bishop`):
clipped to the files west of (and including) the square's file. -/
def DIAG_NW_LT (i : Nat) : Nat :=
  shlOr (GET_BB i) [7, 14, 21, 28, 35, 42, 49] &&& fileBand 1 (GET_FILE i)

/-- lookup_tables `DIAG_SE_LT` (sliding_lookupgen.cc `se_bishop`). -/
def DIAG_SE_LT (i : Nat) : Nat :=
  shrOr (GET_BB i) [7, 14, 21, 28, 35, 42, 49] &&& fileBand (GET_FILE i) 8

/-- lookup_tables `DIAG_SW_LT` (sliding_lookupgen.cc `sw_bishop`). -/
def DIAG_SW_LT (i : Nat) : Nat :=
  shrOr (GET_BB i) [9, 18, 27, 36, 45, 54, 63] &&& fileBand 1 (GET_FILE i)

/-- Modelled from the spec: `KING_LT`, whose defining source
(lookup_tables.cpp) is not under src/.  "King attacks[sq]: set of squares
one step in any of 8 directions, clipped at board edges." -/
def KING_LT (sq : Nat) : Nat :=
  let f : Int := sq % 8
  let r : Int := sq / 8
  ([(-1, -1), (-1, 0), (-1, 1), (0, -1), (0, 1), (1, -1), (1, 0), (1, 1)] :
      List (Int × Int)).foldl
    (fun acc d =>
      let f' := f + d.1
      let r' := r + d.2
      if 0 ≤ f' ∧ f' < 8 ∧ 0 ≤ r' ∧ r' < 8 then acc ||| (1 <<< (r' * 8 + f').toNat)
      else acc) 0

/-- Modelled from the spec: `KNIGHT_LT`, whose defining source
(lookup_tables.cpp) is not under src/.  "Knight attacks[sq]: the 8 L-shaped
destinations, edge-clipped." -/
def KNIGHT_LT (sq : Nat) : Nat :=
  let f : Int := sq % 8
  let r : Int := sq / 8
  ([(-2, -1), (-2, 1), (-1, -2), (-1, 2), (1, -2), (1, 2), (2, -1), (2, 1)] :
      List (Int × Int)).foldl
    (fun acc d =>
      let f' := f + d.1
      let r' := r + d.2
      if 0 ≤ f' ∧ f' < 8 ∧ 0 ≤ r' ∧ r' < 8 then acc ||| (1 <<< (r' * 8 + f').toNat)
      else acc) 0

/-! ## is_sq_attacked (movegen.cpp) -/

/-- Pops `k` bits off a bitboard, returning what remains. -/
def popN : Nat → Nat → Nat
  | 0, n => n
  | k + 1, n => popN k (POP_BIT n).2

/-- The movegen.cpp shift-and-fill: from the blocker set `ray &&& occ`,
computes the reachable squares along the ray up to and including the
nearest blocker.  `up` chooses left shifts (N/E/NE/NW rays) or right
shifts (S/W/SE/SW rays). -/
def fillRay (ray occ : Nat) (ks : List Nat) (up : Bool) : Nat :=
  let u2 := ray &&& occ
  let sh := ks.foldl (fun acc k =>
    acc ||| (if up then (u2 <<< k) &&& M64 else u2 >>> k)) 0
  (sh &&& ray) ^^^ ray

/-- The "pop the capture move last" blocker extraction of movegen.cpp
(N/E/NE/NW rays): pops all but the last bit of the fill. -/
def lastBitBB (u3 u2 : Nat) : Nat :=
  popN (if u3 ≠ 0 then CNT_BITS u2 - 1 else CNT_BITS u2) u2

/-- The "pop the capture move first" blocker extraction of movegen.cpp
(S/W/SE/SW rays): the least significant bit of the fill. -/
def firstBitBB (u2 : Nat) : Nat := GET_BB (POP_BIT u2).1

/-- One sliding-direction test of movegen.cpp `is_sq_attacked`: whether the
nearest blocker along the ray is an enemy piece with one of the two given
kinds (`tW` for a white defender, `tB` for a black defender both given as
the pair of piece indices to accept). -/
def rayAttacked (b : Board) (gen_side : Bool) (ray : Nat) (ks : List Nat)
    (up first : Bool) (tA tB : Nat) : Bool :=
  let white_bb := cb b 12
  let black_bb := cb b 13
  let occ := white_bb ||| black_bb
  let u3 := ray &&& occ
  let u2 := fillRay ray occ ks up
  let blk := if first then firstBitBB u2 else lastBitBB u3 u2
  u3 ≠ 0 ∧
    ((gen_side = true ∧ blk &&& black_bb ≠ 0) ∨ (gen_side = false ∧ blk &&& white_bb ≠ 0)) ∧
    (determineType b blk = tA ∨ determineType b blk = tB)

/-- movegen.cpp `is_sq_attacked`: is the square `index`, belonging to side
`gen_side` (the defender), attacked by the opposite side?  Reproduces the
source's early-return chain, including its pawn-check quirk: for a white
defender on rank 8 the `else` branch tests attacks by *white* pawns. -/
def isSqAttacked (index : Nat) (gen_side : Bool) (b : Board) : Bool :=
  let white_bb := cb b 12
  let black_bb := cb b 13
  let u1 := GET_BB index
  -- pawns
  (if gen_side = true ∧ u1 &&& nthBB B_RANK 8 = 0 then
    (((u1 <<< 7) ||| (u1 <<< 9)) &&& M64 &&& nthBB B_RANK (GET_RANK (index + 8))) &&&
      cb b 6 ≠ 0
   else if ¬(gen_side = true ∧ u1 &&& nthBB B_RANK 8 = 0) ∧ u1 &&& nthBB B_RANK 1 = 0 then
    (((u1 >>> 7) ||| (u1 >>> 9)) &&& nthBB B_RANK (GET_RANK (index - 8))) &&& cb b 0 ≠ 0
   else false) ∨
  -- knights
  ((bits64 (KNIGHT_LT index &&& (if gen_side then black_bb else white_bb))).any fun j =>
    determineType b (GET_BB j) = if gen_side then 8 else 2) ∨
  -- rook and queen rays
  rayAttacked b gen_side (LINE_N_LT index) [8, 16, 24, 32, 40, 48] true false
    (if gen_side then 7 else 1) (if gen_side then 10 else 4) ∨
  rayAttacked b gen_side (LINE_S_LT index) [8, 16, 24, 32, 40, 48] false true
    (if gen_side then 7 else 1) (if gen_side then 10 else 4) ∨
  rayAttacked b gen_side (LINE_E_LT index) [1, 2, 3, 4, 5, 6] true false
    (if gen_side then 7 else 1) (if gen_side then 10 else 4) ∨
  rayAttacked b gen_side (LINE_W_LT index) [1, 2, 3, 4, 5, 6] false true
    (if gen_side then 7 else 1) (if gen_side then 10 else 4) ∨
  -- bishop and queen diagonals
  rayAttacked b gen_side (DIAG_NE_LT index) [9, 18, 27, 36, 45, 54] true false
    (if gen_side then 9 else 3) (if gen_side then 10 else 4) ∨
  rayAttacked b gen_side (DIAG_NW_LT index) [7, 14, 21, 28, 35, 42] true false
    (if gen_side then 9 else 3) (if gen_side then 10 else 4) ∨
  rayAttacked b gen_side (DIAG_SE_LT index) [7, 14, 21, 28, 35, 42] false true
    (if gen_side then 9 else 3) (if gen_side then 10 else 4) ∨
  rayAttacked b gen_side (DIAG_SW_LT index) [9, 18, 27, 36, 45, 54] false true
    (if gen_side then 9 else 3) (if gen_side then 10 else 4) ∨
  -- kings
  (KING_LT index &&& cb b (if gen_side then 11 else 5) ≠ 0)

/-! ## make_move and undo_move (board.cpp) -/

/-- The `wR`-case step of make_move's fall-through castling-rights switch. -/
def stepWR (dep perm : Nat) : Nat :=
  if dep = 7 then perm &&& 7 else if dep = 0 then perm &&& 11 else perm

/-- The `bR`-case step. -/
def stepBR (dep perm : Nat) : Nat :=
  if dep = 63 then perm &&& 13 else if dep = 56 then perm &&& 14 else perm

/-- The `wK`-case step. -/
def stepWK (dep perm : Nat) : Nat := if dep = 4 then perm &&& 3 else perm

/-- The `bK`-case step. -/
def stepBK (dep perm : Nat) : Nat := if dep = 60 then perm &&& 12 else perm

/-- The departure `switch(dep_type)` of make_move.  The source cases have no
`break`, so entering at `wR` also runs the `bR`, `wK` and `bK` cases, and so
on down the chain. -/
def depRights (dep_type dep perm : Nat) : Nat :=
  if dep_type = 1 then stepBK dep (stepWK dep (stepBR dep (stepWR dep perm)))
  else if dep_type = 7 then stepBK dep (stepWK dep (stepBR dep perm))
  else if dep_type = 5 then stepBK dep (stepWK dep perm)
  else if dep_type = 11 then stepBK dep perm
  else perm

/-- The capture `switch(cap_type)` of make_move, also with fall-through. -/
def capRights (cap_type dst perm : Nat) : Nat :=
  if cap_type = 1 then stepBR dst (stepWR dst perm)
  else if cap_type = 7 then stepBR dst perm
  else perm

/-- The undo record pushed by `make_move`/`make_null_move`. -/
def mkUndoRec (b : Board) (move : Nat) : UndoMove :=
  { move := move, castle_perm := b.castle_perm, en_pas_sq := b.en_pas_sq,
    fifty := b.fifty, hash_key := b.hash_key }

/-- make_move, part 1: push the undo record, hash out and clear the
en-passant square, and advance the ply, history-ply and fifty counters. -/
def stageBegin (b : Board) (move : Nat) : Board :=
  let b := { b with history := mkUndoRec b move :: b.history }
  let b := hashEP b
  let b := { b with en_pas_sq := 64 }
  { b with ply := b.ply + 1, his_ply := b.his_ply + 1, fifty := b.fifty + 1 }

/-- make_move, part 2: the pawn (fifty reset, pawn start, en-passant
capture) and castling special cases. -/
def stageSpecial (b : Board) (side : Bool) (move dep_type dst : Nat) : Board :=
  if dep_type = 0 ∨ dep_type = 6 then
    let b := { b with fifty := 0 }
    let b :=
      if IS_PSTR move then
        hashEP { b with en_pas_sq := if side then dst - 8 else dst + 8 }
      else b
    if IS_ENPAS_CAP move then
      if side then obliteratePiece b 6 (dst - 8) else obliteratePiece b 0 (dst + 8)
    else b
  else if IS_CAS move then
    let b := hashCA b
    let b :=
      if dst = 6 then movePieceTk { b with castle_perm := b.castle_perm &&& 3 } 1 7 5
      else if dst = 2 then movePieceTk { b with castle_perm := b.castle_perm &&& 3 } 1 0 3
      else if dst = 62 then movePieceTk { b with castle_perm := b.castle_perm &&& 12 } 7 63 61
      else if dst = 58 then movePieceTk { b with castle_perm := b.castle_perm &&& 12 } 7 56 59
      else b
    hashCA b
  else b

/-- make_move, part 3: the castling-rights update (between the two
`HASH_CA` calls), skipped when the mask is already zero. -/
def stageRights (b : Board) (cap_type dep_type dep dst : Nat) : Board :=
  let b := hashCA b
  let b :=
    if b.castle_perm ≠ 0 then
      { b with castle_perm := capRights cap_type dst (depRights dep_type dep b.castle_perm) }
    else b
  hashCA b

/-- make_move, part 4: remove a (non-en-passant) captured piece and reset
the fifty counter. -/
def stageCapture (b : Board) (move cap_type dst : Nat) : Board :=
  if cap_type ≠ 14 ∧ ¬IS_ENPAS_CAP move then
    { obliteratePiece b cap_type dst with fifty := 0 }
  else b

/-- make_move, part 5: replace the pawn on the destination square with the
promoted piece. -/
def stageProm (b : Board) (side : Bool) (prom_type dst : Nat) : Board :=
  if prom_type ≠ 14 then
    let b := if side then obliteratePiece b 0 dst else obliteratePiece b 6 dst
    spawnPiece b prom_type dst
  else b

/-- make_move, part 6: flip the side to move and hash the side key. -/
def stageSide (b : Board) : Board := hashSide { b with side := !b.side }

/-- The state-mutating body of board.cpp `make_move`, up to (but not
including) the final legality test, assembled from its six stages in source
order, with the piece move (`move_piece_tu`) between parts 4 and 5. -/
def applyMove (b : Board) (move : Nat) : Board :=
  let dep := DEP_CELL move
  let dst := DST_CELL move
  let dep_type := determineType b (GET_BB dep)
  let cap_type := CAPTURED move
  let prom_type := PROMOTED move
  let side := b.side
  stageSide (stageProm
    (movePieceTu
      (stageCapture
        (stageRights (stageSpecial (stageBegin b move) side move dep_type dst)
          cap_type dep_type dep dst)
        move cap_type dst)
      dep dst)
    side prom_type dst)

/-- undo_move, part 1: decrement the ply counters, hash out the current
en-passant square and castling rights, restore the saved scalar fields,
hash the restored values back in, and flip the side back. -/
def undoRestore (b : Board) (ms : UndoMove) : Board :=
  let b := { b with ply := b.ply - 1, his_ply := b.his_ply - 1 }
  let b := hashEP b
  let b := hashCA b
  let b := { b with castle_perm := ms.castle_perm, en_pas_sq := ms.en_pas_sq,
                    fifty := ms.fifty }
  let b := hashEP b
  let b := hashCA b
  hashSide { b with side := !b.side }

/-- undo_move, part 2: put back the en-passant victim, or move the castling
rook back home. -/
def undoSpecial (b : Board) (side : Bool) (move dst : Nat) : Board :=
  if IS_ENPAS_CAP move then
    if side then spawnPiece b 6 (dst - 8) else spawnPiece b 0 (dst + 8)
  else if IS_CAS move then
    if dst = 6 then movePieceTk b 1 5 7
    else if dst = 2 then movePieceTk b 1 3 0
    else if dst = 62 then movePieceTk b 7 61 63
    else if dst = 58 then movePieceTk b 7 59 56
    else b
  else b

/-- undo_move, part 3: put a captured piece back on the destination. -/
def undoCapture (b : Board) (move cap_type dst : Nat) : Board :=
  if cap_type ≠ 14 ∧ ¬IS_ENPAS_CAP move then spawnPiece b cap_type dst else b

/-- undo_move, part 4: demote the promoted piece back to a pawn. -/
def undoProm (b : Board) (side : Bool) (prom_type dep : Nat) : Board :=
  if prom_type ≠ 14 then
    let b := obliteratePiece b prom_type dep
    if side then spawnPiece b 0 dep else spawnPiece b 6 dep
  else b

/-- board.cpp `undo_move`. -/
def undoMove (b : Board) : Board :=
  match b.history with
  | [] => b
  | ms :: rest =>
    let move := ms.move
    let dep := DEP_CELL ms.move
    let dst := DST_CELL ms.move
    let cap_type := CAPTURED ms.move
    let prom_type := PROMOTED ms.move
    let side := !b.side
    { undoProm
        (undoCapture (movePieceTu (undoSpecial (undoRestore b ms) side move dst) dst dep)
          move cap_type dst)
        side prom_type dep with history := rest }

/-- The mover's king bitboard, read after the move is applied. -/
def kingBB (b : Board) (side : Bool) : Nat := if side then cb b 5 else cb b 11

/-- board.cpp `make_move`: applies the move, then tests whether the mover's
king is attacked; if so the move is undone and `false` is returned. -/
def makeMove (b : Board) (move : Nat) : Bool × Board :=
  let side := b.side
  let b' := applyMove b move
  if isSqAttacked (POP_BIT (kingBB b' side)).1 side b' then (false, undoMove b')
  else (true, b')

/-- board.cpp `make_null_move`. -/
def makeNullMove (b : Board) : Board :=
  let b := { b with history :=
    { move := 0, castle_perm := b.castle_perm, en_pas_sq := b.en_pas_sq,
      fifty := b.fifty, hash_key := b.hash_key } :: b.history }
  let b := hashEP b
  let b := { b with en_pas_sq := 64 }
  let b := { b with ply := b.ply + 1, his_ply := b.his_ply + 1 }
  hashSide { b with side := !b.side }

/-- board.cpp `undo_null_move`.  Note: unlike `undo_move`, the source hashes
the castling permissions *out* but never hashes them back *in*. -/
def undoNullMove (b : Board) : Board :=
  match b.history with
  | [] => b
  | ms :: rest =>
    let b := { b with ply := b.ply - 1, his_ply := b.his_ply - 1 }
    let b := hashEP b
    let b := hashCA b
    let b := { b with castle_perm := ms.castle_perm, en_pas_sq := ms.en_pas_sq,
                      fifty := ms.fifty }
    let b := hashEP b
    let b := hashSide { b with side := !b.side }
    { b with history := rest }

/-! ## Move generation (movegen.cpp) -/

/-- move.h `Move`: a packed move plus its ordering score. -/
structure MoveEntry where
  move : Nat
  score : Nat
  deriving DecidableEq

/-- movegen.h `MoveList`. -/
structure MoveList where
  list : List MoveEntry
  attacked : Nat
  deriving DecidableEq

/-- movegen.cpp `VICTIM_SCORE`. -/
def VICTIM_SCORE : List Nat :=
  [100, 400, 300, 200, 500, 600, 100, 400, 300, 200, 500, 600]

/-- movegen.cpp `MVV_LVA_ST` as filled by `init_mvv_lva`. -/
def MVV_LVA_ST (victim attacker : Nat) : Nat :=
  VICTIM_SCORE.getD victim 0 + 6 - VICTIM_SCORE.getD attacker 0 / 100

/-- movegen.cpp `push_quiet_move`: scored by the killer slots, else by the
history heuristic. -/
def pushQuietMove (ml : MoveList) (move : Nat) (b : Board) : MoveList :=
  if b.search_killers.getD b.ply 0 = move then
    { ml with list := ml.list ++ [⟨move, 90000⟩] }
  else if b.search_killers.getD (64 + b.ply) 0 = move then
    { ml with list := ml.list ++ [⟨move, 80000⟩] }
  else
    { ml with list := ml.list ++
      [⟨move, b.search_history.getD
        (determineType b (GET_BB (DEP_CELL move)) * 64 + DST_CELL move) 0⟩] }

/-- movegen.cpp `push_capture_move`: silently drops king captures, otherwise
scores by MVV/LVA plus the 100000 capture baseline. -/
def pushCaptureMove (ml : MoveList) (move : Nat) (b : Board) : MoveList :=
  let cap_type := CAPTURED move
  if cap_type = 5 ∨ cap_type = 11 then ml
  else
    { list := ml.list ++
        [⟨move, MVV_LVA_ST cap_type (determineType b (GET_BB (DEP_CELL move))) + 100000⟩],
      attacked := ml.attacked ||| GET_BB (DST_CELL move) }

/-- movegen.cpp `push_enp_capture_move`. -/
def pushEnpCaptureMove (ml : MoveList) (move : Nat) : MoveList :=
  { list := ml.list ++ [⟨move, 100105⟩],
    attacked := ml.attacked ||| GET_BB (DST_CELL move) }

/-- movegen.cpp `push_castling_move`. -/
def pushCastlingMove (ml : MoveList) (move : Nat) : MoveList :=
  { ml with list := ml.list ++ [⟨move, 50000⟩] }

/-- Pops `k` bits, returning the popped indices in order and the remainder. -/
def popListAux : Nat → Nat → List Nat × Nat
  | 0, n => ([], n)
  | k + 1, n =>
    let p := POP_BIT n
    let r := popListAux k p.2
    (p.1 :: r.1, r.2)

/-- Whether the single-bit board `blk` holds an enemy piece of `gen_side`. -/
def enemyHit (b : Board) (gen_side : Bool) (blk : Nat) : Bool :=
  (gen_side = true ∧ blk &&& cb b 13 ≠ 0) ∨ (gen_side = false ∧ blk &&& cb b 12 ≠ 0)

/-- One "quiet moves first, capture last" ray of movegen.cpp
`gen_rook_moves`/`gen_bishop_moves` (the N/E/NE/NW directions). -/
def genRayUp (b : Board) (gen_side : Bool) (sq ray : Nat) (ks : List Nat)
    (ml : MoveList) : MoveList :=
  let occ := cb b 12 ||| cb b 13
  let u3 := ray &&& occ
  let u2 := fillRay ray occ ks true
  let cnt := if u3 ≠ 0 then CNT_BITS u2 - 1 else CNT_BITS u2
  let pl := popListAux cnt u2
  let ml := pl.1.foldl (fun ml i => pushQuietMove ml (GET_MOVE sq i 14 14 0) b) ml
  if u3 ≠ 0 ∧ enemyHit b gen_side pl.2 then
    pushCaptureMove ml (GET_MOVE sq (POP_BIT pl.2).1 (determineType b pl.2) 14 0) b
  else ml

/-- One "capture first, quiet moves after" ray (the S/W/SE/SW directions). -/
def genRayDown (b : Board) (gen_side : Bool) (sq ray : Nat) (ks : List Nat)
    (ml : MoveList) : MoveList :=
  let occ := cb b 12 ||| cb b 13
  let u3 := ray &&& occ
  let u2 := fillRay ray occ ks false
  if u3 ≠ 0 then
    let cnt := CNT_BITS u2 - 1
    let p := POP_BIT u2
    let blk := GET_BB p.1
    let ml :=
      if enemyHit b gen_side blk then
        pushCaptureMove ml (GET_MOVE sq p.1 (determineType b blk) 14 0) b
      else ml
    (popListAux cnt p.2).1.foldl (fun ml i => pushQuietMove ml (GET_MOVE sq i 14 14 0) b) ml
  else
    (popListAux (CNT_BITS u2) u2).1.foldl
      (fun ml i => pushQuietMove ml (GET_MOVE sq i 14 14 0) b) ml

/-- movegen.cpp `gen_rook_moves`: every set bit of `u64_1` is treated as a
rook; the four orthogonal rays are generated in the order N, S, E, W. -/
def genRookMoves (u64_1 : Nat) (gen_side : Bool) (ml : MoveList) (b : Board) :
    MoveList :=
  (bits64 u64_1).foldl
    (fun ml sq =>
      let ml := genRayUp b gen_side sq (LINE_N_LT sq) [8, 16, 24, 32, 40, 48] ml
      let ml := genRayDown b gen_side sq (LINE_S_LT sq) [8, 16, 24, 32, 40, 48] ml
      let ml := genRayUp b gen_side sq (LINE_E_LT sq) [1, 2, 3, 4, 5, 6] ml
      genRayDown b gen_side sq (LINE_W_LT sq) [1, 2, 3, 4, 5, 6] ml) ml

/-- movegen.cpp `gen_bishop_moves`: rays NE, NW, SE, SW. -/
def genBishopMoves (u64_1 : Nat) (gen_side : Bool) (ml : MoveList) (b : Board) :
    MoveList :=
  (bits64 u64_1).foldl
    (fun ml sq =>
      let ml := genRayUp b gen_side sq (DIAG_NE_LT sq) [9, 18, 27, 36, 45, 54] ml
      let ml := genRayUp b gen_side sq (DIAG_NW_LT sq) [7, 14, 21, 28, 35, 42] ml
      let ml := genRayDown b gen_side sq (DIAG_SE_LT sq) [7, 14, 21, 28, 35, 42] ml
      genRayDown b gen_side sq (DIAG_SW_LT sq) [9, 18, 27, 36, 45, 54] ml) ml

/-- The capture-only variant of one upward ray (`gen_rook_cap_moves` /
`gen_bishop_cap_moves`, N/E/NE/NW directions). -/
def genRayUpCap (b : Board) (gen_side : Bool) (sq ray : Nat) (ks : List Nat)
    (ml : MoveList) : MoveList :=
  let occ := cb b 12 ||| cb b 13
  let u3 := ray &&& occ
  let u2 := fillRay ray occ ks true
  let cnt := if u3 ≠ 0 then CNT_BITS u2 - 1 else CNT_BITS u2
  let rest := popN cnt u2
  if u3 ≠ 0 ∧ enemyHit b gen_side rest then
    pushCaptureMove ml (GET_MOVE sq (POP_BIT rest).1 (determineType b rest) 14 0) b
  else ml

/-- The capture-only variant of one downward ray (S/W/SE/SW directions). -/
def genRayDownCap (b : Board) (gen_side : Bool) (sq ray : Nat) (ks : List Nat)
    (ml : MoveList) : MoveList :=
  let occ := cb b 12 ||| cb b 13
  let u3 := ray &&& occ
  let u2 := fillRay ray occ ks false
  if u3 ≠ 0 then
    let p := POP_BIT u2
    let blk := GET_BB p.1
    if enemyHit b gen_side blk then
      pushCaptureMove ml (GET_MOVE sq p.1 (determineType b blk) 14 0) b
    else ml
  else ml

/-- movegen.cpp `gen_rook_cap_moves`. -/
def genRookCapMoves (u64_1 : Nat) (gen_side : Bool) (ml : MoveList) (b : Board) :
    MoveList :=
  (bits64 u64_1).foldl
    (fun ml sq =>
      let ml := genRayUpCap b gen_side sq (LINE_N_LT sq) [8, 16, 24, 32, 40, 48] ml
      let ml := genRayDownCap b gen_side sq (LINE_S_LT sq) [8, 16, 24, 32, 40, 48] ml
      let ml := genRayUpCap b gen_side sq (LINE_E_LT sq) [1, 2, 3, 4, 5, 6] ml
      genRayDownCap b gen_side sq (LINE_W_LT sq) [1, 2, 3, 4, 5, 6] ml) ml

/-- movegen.cpp `gen_bishop_cap_moves`. -/
def genBishopCapMoves (u64_1 : Nat) (gen_side : Bool) (ml : MoveList) (b : Board) :
    MoveList :=
  (bits64 u64_1).foldl
    (fun ml sq =>
      let ml := genRayUpCap b gen_side sq (DIAG_NE_LT sq) [9, 18, 27, 36, 45, 54] ml
      let ml := genRayUpCap b gen_side sq (DIAG_NW_LT sq) [7, 14, 21, 28, 35, 42] ml
      let ml := genRayDownCap b gen_side sq (DIAG_SE_LT sq) [7, 14, 21, 28, 35, 42] ml
      genRayDownCap b gen_side sq (DIAG_SW_LT sq) [9, 18, 27, 36, 45, 54] ml) ml

/-- movegen.cpp `gen_knight_moves`: captures first, then quiet moves. -/
def genKnightMoves (u64_1 : Nat) (gen_side : Bool) (ml : MoveList) (b : Board) :
    MoveList :=
  let white_bb := cb b 12
  let black_bb := cb b 13
  let free := (M64 ^^^ white_bb) &&& (M64 ^^^ black_bb)
  (bits64 u64_1).foldl
    (fun ml sq =>
      let caps := KNIGHT_LT sq &&& (if gen_side then black_bb else white_bb)
      let ml := (bits64 caps).foldl
        (fun ml j =>
          pushCaptureMove ml (GET_MOVE sq j (determineType b (GET_BB j)) 14 0) b) ml
      (bits64 (KNIGHT_LT sq &&& free)).foldl
        (fun ml j => pushQuietMove ml (GET_MOVE sq j 14 14 0) b) ml) ml

/-- movegen.cpp `gen_knight_cap_moves`. -/
def genKnightCapMoves (u64_1 : Nat) (gen_side : Bool) (ml : MoveList) (b : Board) :
    MoveList :=
  let white_bb := cb b 12
  let black_bb := cb b 13
  (bits64 u64_1).foldl
    (fun ml sq =>
      (bits64 (KNIGHT_LT sq &&& (if gen_side then black_bb else white_bb))).foldl
        (fun ml j =>
          pushCaptureMove ml (GET_MOVE sq j (determineType b (GET_BB j)) 14 0) b) ml) ml

/-- The capture-direction body shared by the white-pawn cases of
movegen.cpp `gen_pawn_moves`/`gen_pawn_cap_moves` (`sh` is 7 for the
capture-left case and 9 for capture-right). -/
def genWPawnCapDir (b : Board) (sq sh : Nat) (ml : MoveList) : MoveList :=
  let u2 := GET_BB sq
  let u3 :=
    if b.en_pas_sq ≠ 64 then
      ((u2 <<< sh) &&& M64) &&& nthBB B_RANK (GET_RANK (sq + 8)) &&&
        (cb b 13 ||| GET_BB b.en_pas_sq)
    else ((u2 <<< sh) &&& M64) &&& nthBB B_RANK (GET_RANK (sq + 8)) &&& cb b 13
  if u3 ≠ 0 then
    let t := determineType b u3
    let j := (POP_BIT u3).1
    if j = b.en_pas_sq then
      pushEnpCaptureMove ml (GET_MOVE sq j 6 14 MFLAGEP)
    else if u3 &&& nthBB B_RANK 8 ≠ 0 then
      let ml := pushCaptureMove ml (GET_MOVE sq j t 3 0) b
      let ml := pushCaptureMove ml (GET_MOVE sq j t 1 0) b
      let ml := pushCaptureMove ml (GET_MOVE sq j t 2 0) b
      pushCaptureMove ml (GET_MOVE sq j t 4 0) b
    else pushCaptureMove ml (GET_MOVE sq j t 14 0) b
  else ml

/-- The black-pawn capture-direction body (`sh` is 7 for capture-left and
9 for capture-right). -/
def genBPawnCapDir (b : Board) (sq sh : Nat) (ml : MoveList) : MoveList :=
  let u2 := GET_BB sq
  let u3 :=
    if b.en_pas_sq ≠ 64 then
      (u2 >>> sh) &&& nthBB B_RANK (GET_RANK (sq - 8)) &&&
        (cb b 12 ||| GET_BB b.en_pas_sq)
    else (u2 >>> sh) &&& nthBB B_RANK (GET_RANK (sq - 8)) &&& cb b 12
  if u3 ≠ 0 then
    let t := determineType b u3
    let j := (POP_BIT u3).1
    if j = b.en_pas_sq then
      pushEnpCaptureMove ml (GET_MOVE sq j 0 14 MFLAGEP)
    else if u3 &&& nthBB B_RANK 1 ≠ 0 then
      let ml := pushCaptureMove ml (GET_MOVE sq j t 9 0) b
      let ml := pushCaptureMove ml (GET_MOVE sq j t 7 0) b
      let ml := pushCaptureMove ml (GET_MOVE sq j t 8 0) b
      pushCaptureMove ml (GET_MOVE sq j t 10 0) b
    else pushCaptureMove ml (GET_MOVE sq j t 14 0) b
  else ml

/-- movegen.cpp `gen_pawn_moves`. -/
def genPawnMoves (gen_side : Bool) (ml : MoveList) (b : Board) : MoveList :=
  let occ := cb b 12 ||| cb b 13
  let free := M64 ^^^ occ
  if gen_side then
    (bits64 (cb b 0)).foldl
      (fun ml sq =>
        let u2 := GET_BB sq
        let u3 := ((u2 <<< 8) &&& M64) &&& free
        let ml :=
          if u3 ≠ 0 then
            let j := (POP_BIT u3).1
            let ml :=
              if u3 &&& nthBB B_RANK 8 ≠ 0 then
                let ml := pushQuietMove ml (GET_MOVE sq j 14 3 0) b
                let ml := pushQuietMove ml (GET_MOVE sq j 14 1 0) b
                let ml := pushQuietMove ml (GET_MOVE sq j 14 2 0) b
                pushQuietMove ml (GET_MOVE sq j 14 4 0) b
              else pushQuietMove ml (GET_MOVE sq j 14 14 0) b
            let u4 := ((u2 <<< 16) &&& M64) &&& nthBB B_RANK 4 &&& free
            if u4 ≠ 0 then
              pushQuietMove ml (GET_MOVE sq (POP_BIT u4).1 14 14 MFLAGPS) b
            else ml
          else ml
        let ml := genWPawnCapDir b sq 7 ml
        genWPawnCapDir b sq 9 ml) ml
  else
    (bits64 (cb b 6)).foldl
      (fun ml sq =>
        let u2 := GET_BB sq
        let u3 := (u2 >>> 8) &&& free
        let ml :=
          if u3 ≠ 0 then
            let j := (POP_BIT u3).1
            let ml :=
              if u3 &&& nthBB B_RANK 1 ≠ 0 then
                let ml := pushQuietMove ml (GET_MOVE sq j 14 9 0) b
                let ml := pushQuietMove ml (GET_MOVE sq j 14 7 0) b
                let ml := pushQuietMove ml (GET_MOVE sq j 14 8 0) b
                pushQuietMove ml (GET_MOVE sq j 14 10 0) b
              else pushQuietMove ml (GET_MOVE sq j 14 14 0) b
            let u4 := (u2 >>> 16) &&& nthBB B_RANK 5 &&& free
            if u4 ≠ 0 then
              pushQuietMove ml (GET_MOVE sq (POP_BIT u4).1 14 14 MFLAGPS) b
            else ml
          else ml
        let ml := genBPawnCapDir b sq 7 ml
        genBPawnCapDir b sq 9 ml) ml

/-- movegen.cpp `gen_pawn_cap_moves`. -/
def genPawnCapMoves (gen_side : Bool) (ml : MoveList) (b : Board) : MoveList :=
  if gen_side then
    (bits64 (cb b 0)).foldl
      (fun ml sq => genWPawnCapDir b sq 9 (genWPawnCapDir b sq 7 ml)) ml
  else
    (bits64 (cb b 6)).foldl
      (fun ml sq => genBPawnCapDir b sq 9 (genBPawnCapDir b sq 7 ml)) ml

/-- movegen.cpp `gen_king_moves`: king captures, quiet king steps, castling. -/
def genKingMoves (gen_side : Bool) (ml : MoveList) (b : Board) : MoveList :=
  let white_bb := cb b 12
  let black_bb := cb b 13
  let free := (M64 ^^^ white_bb) &&& (M64 ^^^ black_bb)
  let sq := (POP_BIT (if gen_side then cb b 5 else cb b 11)).1
  let ml := (bits64 (KING_LT sq &&& (if gen_side then black_bb else white_bb))).foldl
    (fun ml j =>
      pushCaptureMove ml (GET_MOVE sq j (determineType b (GET_BB j)) 14 0) b) ml
  let ml := (bits64 (KING_LT sq &&& free)).foldl
    (fun ml j => pushQuietMove ml (GET_MOVE sq j 14 14 0) b) ml
  if b.castle_perm ≠ 0 ∧
      ((gen_side = true ∧ sq = 4) ∨ (gen_side = false ∧ sq = 60)) then
    if gen_side then
      let not_in_check := ¬isSqAttacked 4 true b
      let ml :=
        if b.castle_perm &&& 8 ≠ 0 ∧ not_in_check ∧
            determineType b (GET_BB 5) = 14 ∧ determineType b (GET_BB 6) = 14 ∧
            ¬isSqAttacked 5 true b then
          pushCastlingMove ml (GET_MOVE 4 6 14 14 MFLAGCA)
        else ml
      if b.castle_perm &&& 4 ≠ 0 ∧ not_in_check ∧
          determineType b (GET_BB 3) = 14 ∧ determineType b (GET_BB 2) = 14 ∧
          determineType b (GET_BB 1) = 14 ∧ ¬isSqAttacked 3 true b then
        pushCastlingMove ml (GET_MOVE 4 2 14 14 MFLAGCA)
      else ml
    else
      let not_in_check := ¬isSqAttacked 60 false b
      let ml :=
        if b.castle_perm &&& 2 ≠ 0 ∧ not_in_check ∧
            determineType b (GET_BB 61) = 14 ∧ determineType b (GET_BB 62) = 14 ∧
            ¬isSqAttacked 61 false b then
          pushCastlingMove ml (GET_MOVE 60 62 14 14 MFLAGCA)
        else ml
      if b.castle_perm &&& 1 ≠ 0 ∧ not_in_check ∧
          determineType b (GET_BB 59) = 14 ∧ determineType b (GET_BB 58) = 14 ∧
          determineType b (GET_BB 57) = 14 ∧ ¬isSqAttacked 59 false b then
        pushCastlingMove ml (GET_MOVE 60 58 14 14 MFLAGCA)
      else ml
  else ml

/-- movegen.cpp `gen_king_cap_moves`. -/
def genKingCapMoves (gen_side : Bool) (ml : MoveList) (b : Board) : MoveList :=
  let white_bb := cb b 12
  let black_bb := cb b 13
  let sq := (POP_BIT (if gen_side then cb b 5 else cb b 11)).1
  (bits64 (KING_LT sq &&& (if gen_side then black_bb else white_bb))).foldl
    (fun ml j =>
      pushCaptureMove ml (GET_MOVE sq j (determineType b (GET_BB j)) 14 0) b) ml

/-- movegen.cpp `gen_moves`: all pseudo-legal moves for the side to play, in
the order queens (lines then diagonals), rooks, knights, bishops, pawns,
king. -/
def genMoves (b : Board) : MoveList :=
  let ml : MoveList := ⟨[], 0⟩
  let ml := genRookMoves (cb b (if b.side then 4 else 10)) b.side ml b
  let ml := genBishopMoves (cb b (if b.side then 4 else 10)) b.side ml b
  let ml := genRookMoves (cb b (if b.side then 1 else 7)) b.side ml b
  let ml := genKnightMoves (cb b (if b.side then 2 else 8)) b.side ml b
  let ml := genBishopMoves (cb b (if b.side then 3 else 9)) b.side ml b
  let ml := genPawnMoves b.side ml b
  genKingMoves b.side ml b

/-- movegen.cpp `gen_captures`. -/
def genCaptures (b : Board) : MoveList :=
  let ml : MoveList := ⟨[], 0⟩
  let ml := genRookCapMoves (cb b (if b.side then 4 else 10)) b.side ml b
  let ml := genBishopCapMoves (cb b (if b.side then 4 else 10)) b.side ml b
  let ml := genRookCapMoves (cb b (if b.side then 1 else 7)) b.side ml b
  let ml := genKnightCapMoves (cb b (if b.side then 2 else 8)) b.side ml b
  let ml := genBishopCapMoves (cb b (if b.side then 3 else 9)) b.side ml b
  let ml := genPawnCapMoves b.side ml b
  genKingCapMoves b.side ml b

/-- movegen.cpp `gen_legal_moves`: walks the pseudo-legal list, making and
unmaking each move on the board, and keeps the moves whose `make_move`
succeeded.  The board is threaded through the loop exactly as the mutable
`Board&` of the source is. -/
def genLegalMoves (b : Board) : MoveList :=
  ((genMoves b).list.foldl
    (fun (acc : MoveList × Board) me =>
      let r := makeMove acc.2 me.move
      if r.1 then ({ acc.1 with list := acc.1.list ++ [me] }, undoMove r.2)
      else (acc.1, r.2))
    (⟨[], 0⟩, b)).1

/-! ## Transposition table (hash_table.cpp) -/

/-- defs.h `INFINITY_C`. -/
def INFINITY_C : Int := 50000

/-- defs.h `IS_MATE`. -/
def IS_MATE : Int := 49936

/-- The all-zero entry produced by `clear_table` / the default constructor. -/
def emptyEntry : TableEntry := ⟨0, 0, 0, 0, 0⟩

/-- hash_table.cpp `store_entry`: always-replace at `hash_key mod capacity`,
with mate scores adjusted by the ply. -/
def storeEntry (tt : TranspositionTable) (ply : Nat) (hash_key move : Nat)
    (score : Int) (depth flag : Nat) : TranspositionTable :=
  let index := hash_key % tt.num_entries
  let score := if score > IS_MATE then score + ply
               else if score < -IS_MATE then score - ply else score
  { tt with t_entry := tt.t_entry.set index ⟨hash_key, move, score, depth, flag⟩ }

/-- hash_table.cpp `probe_table`.  Returns the hit flag together with the
final values of the by-reference `pv_move` and `score` arguments.  The
source's `switch` on the stored flag has no `break` statements: the
`TFALPHA` case falls through into `TFBETA` and then `TFEXACT`. -/
def probeTable (tt : TranspositionTable) (ply : Nat) (hash_key depth : Nat)
    (pv_move : Nat) (score : Int) (alpha beta : Int) : Bool × Nat × Int :=
  let index := hash_key % tt.num_entries
  let e := tt.t_entry.getD index emptyEntry
  if e.hash_key = hash_key then
    let pv := e.move
    if e.depth ≥ depth then
      let s := e.score
      let s := if s > IS_MATE then s - ply else if s < -IS_MATE then s + ply else s
      if e.flag = TFALPHA then
        if s ≤ alpha then (true, pv, alpha)
        else if s ≥ beta then (true, pv, beta)
        else (true, pv, s)
      else if e.flag = TFBETA then
        if s ≥ beta then (true, pv, beta) else (true, pv, s)
      else if e.flag = TFEXACT then (true, pv, s)
      else (false, pv, s)
    else (false, pv, score)
  else (false, pv_move, score)

/-- hash_table.cpp `probe_pv_table`. -/
def probePvTable (tt : TranspositionTable) (hash_key : Nat) : Nat :=
  let index := hash_key % tt.num_entries
  let e := tt.t_entry.getD index emptyEntry
  if e.hash_key = hash_key then e.move else 0

/-! ## Derived characterisations used by the claims -/

/-- Closed form of the castling-rights mask after a successful `make_move`:
the castling special case masks the mover's rights, and then — because the
source's two `switch` statements fall through — the departure update runs
the chain of cases from the moving piece's own case downwards, and the
capture update runs from the captured piece's case downwards.  No update is
made when the mask is already zero. -/
def castlePermAfter (b : Board) (move : Nat) : Nat :=
  let dep := DEP_CELL move
  let dst := DST_CELL move
  let dep_type := determineType b (GET_BB dep)
  let p0 :=
    if dep_type = 0 ∨ dep_type = 6 then b.castle_perm
    else if IS_CAS move then
      if dst = 6 then b.castle_perm &&& 3
      else if dst = 2 then b.castle_perm &&& 3
      else if dst = 62 then b.castle_perm &&& 12
      else if dst = 58 then b.castle_perm &&& 12
      else b.castle_perm
    else b.castle_perm
  if p0 ≠ 0 then capRights (CAPTURED move) dst (depRights dep_type dep p0) else p0

/-! ## Concrete positions used as witnesses and counterexamples -/

/-- An empty transposition table. -/
def emptyTT : TranspositionTable := ⟨[], 0⟩

/-- Builds a board from side, castling rights, en-passant square and the
twelve piece bitboards, with the colour aggregates derived and the search
tables zeroed (as by the `Board` constructor). -/
def mkBoard (s : Bool) (cp ep : Nat) (boards : List Nat) : Board :=
  { side := s, ply := 0, his_ply := 0, castle_perm := cp, en_pas_sq := ep,
    fifty := 0, hash_key := 0, history := [],
    chessboard := boards ++
      [(boards.take 6).foldl (fun a x => a ||| x) 0,
       ((boards.drop 6).take 6).foldl (fun a x => a ||| x) 0],
    t_table := emptyTT, pv_array := List.replicate 64 0,
    search_history := List.replicate 768 0, search_killers := List.replicate 128 0 }

/-- The standard chess starting position. -/
def startBoard : Board := mkBoard true 15 64
  [0xFF00, 0x81, 0x42, 0x24, 0x8, 0x10,
   0x00FF000000000000, 0x8100000000000000, 0x4200000000000000, 0x2400000000000000,
   0x0800000000000000, 0x1000000000000000]

/-- White: Ka1, Re8; black: Kh5; black still holds both castling rights. -/
def rookE8Board : Board := mkBoard true 3 64
  [0, GET_BB 60, 0, 0, 0, GET_BB 0, 0, 0, 0, 0, 0, GET_BB 39]

/-- The quiet rook move e8-e7 on `rookE8Board`. -/
def rookE8Move : Nat := GET_MOVE 60 52 14 14 0

/-- The score adjustment `probe_table` applies when reading a stored score:
mate scores are turned back from distance-to-mate into distance-to-root. -/
def adjScore (s : Int) (ply : Nat) : Int :=
  if s > IS_MATE then s - ply else if s < -IS_MATE then s + ply else s


/-- The set of special-move flags a generator ever attaches to a packed
move: none, the en-passant flag, the pawn-start flag or the castling flag. -/
def flagOK (flag : Nat) : Prop :=
  flag = 0 ∨ flag = MFLAGEP ∨ flag = MFLAGPS ∨ flag = MFLAGCA

/-- The packed move does not capture a king (neither piece type 5 nor 11). -/
def noKingCap (m : Nat) : Prop := CAPTURED m ≠ 5 ∧ CAPTURED m ≠ 11

end Cortex

namespace Cortex

/-! # Theorems

General-purpose lemmas first, then one theorem (with its witness or
counterexample) per claim. -/

/-! ## Xor and field-projection lemmas -/

lemma xor_left_comm (a b c : Nat) : a ^^^ (b ^^^ c) = b ^^^ (a ^^^ c) := by
  rw [← Nat.xor_assoc, Nat.xor_comm a b, Nat.xor_assoc]

lemma xor_xor_self (a b : Nat) : a ^^^ (a ^^^ b) = b := by
  rw [← Nat.xor_assoc, Nat.xor_self, Nat.zero_xor]

lemma spawn_cp (b : Board) (t i : Nat) : (spawnPiece b t i).castle_perm = b.castle_perm := rfl

lemma obl_cp (b : Board) (t i : Nat) : (obliteratePiece b t i).castle_perm = b.castle_perm := rfl

lemma tk_cp (b : Board) (t i j : Nat) : (movePieceTk b t i j).castle_perm = b.castle_perm := rfl

lemma tu_cp (b : Board) (i j : Nat) : (movePieceTu b i j).castle_perm = b.castle_perm := rfl

lemma hashEP_cp (b : Board) : (hashEP b).castle_perm = b.castle_perm := by
  unfold hashEP; split <;> rfl

lemma stageBegin_cp (b : Board) (m : Nat) : (stageBegin b m).castle_perm = b.castle_perm := by
  unfold stageBegin; simp [hashEP_cp]

lemma stageSpecial_cp (b : Board) (s : Bool) (m dt dst : Nat) :
    (stageSpecial b s m dt dst).castle_perm =
      (if dt = 0 ∨ dt = 6 then b.castle_perm
       else if IS_CAS m then
         if dst = 6 then b.castle_perm &&& 3
         else if dst = 2 then b.castle_perm &&& 3
         else if dst = 62 then b.castle_perm &&& 12
         else if dst = 58 then b.castle_perm &&& 12
         else b.castle_perm
       else b.castle_perm) := by
  unfold stageSpecial
  split_ifs <;> simp_all [hashEP_cp, hashCA, tk_cp, obl_cp]

lemma stageRights_cp (b : Board) (ct dt dep dst : Nat) :
    (stageRights b ct dt dep dst).castle_perm =
      (if b.castle_perm ≠ 0 then capRights ct dst (depRights dt dep b.castle_perm)
       else b.castle_perm) := by
  unfold stageRights hashCA
  split_ifs <;> simp_all

lemma stageCapture_cp (b : Board) (m ct dst : Nat) :
    (stageCapture b m ct dst).castle_perm = b.castle_perm := by
  unfold stageCapture; split <;> rfl

lemma stageProm_cp (b : Board) (s : Bool) (pt dst : Nat) :
    (stageProm b s pt dst).castle_perm = b.castle_perm := by
  unfold stageProm; split_ifs <;> rfl

lemma stageSide_cp (b : Board) : (stageSide b).castle_perm = b.castle_perm := rfl

/-- The castling-rights mask of the board produced by the mutating body of
`make_move` is exactly the fall-through closed form `castlePermAfter`. -/
lemma apply_cp (b : Board) (m : Nat) :
    (applyMove b m).castle_perm = castlePermAfter b m := by
  unfold applyMove castlePermAfter
  rw [stageSide_cp, stageProm_cp, tu_cp, stageCapture_cp, stageRights_cp,
    stageSpecial_cp, stageBegin_cp]

/-- On success `make_move` leaves the applied board in place. -/
lemma makeMove_snd_of_true (b : Board) (m : Nat) (h : (makeMove b m).1 = true) :
    (makeMove b m).2 = applyMove b m := by
  unfold makeMove at h ⊢
  dsimp only at h ⊢
  split at h
  · exact absurd h (by simp)
  · rename_i hc
    rw [if_neg hc]

/-! ## Claim C2: null-move round trip -/

/-- C2: `make_null_move` followed by `undo_null_move` restores every field
of the board *except* the Zobrist key, which comes back XORed with the
castling key of the current rights (because `undo_null_move` hashes the
castling rights out but never back in); on the start position the key is
therefore not restored.  This refutes the claim that the null round trip
restores the entire state including the hash. -/
theorem null_move_roundtrip_corrupts_hash :
    (∀ b : Board, undoNullMove (makeNullMove b) =
      { b with hash_key := b.hash_key ^^^ CASTLE_KEYS b.castle_perm }) ∧
    undoNullMove (makeNullMove startBoard) ≠ startBoard := by
  constructor
  · intro b
    cases b with
    | mk side ply his cp ep fifty hk hist cbd tt pv sh sk =>
      by_cases hep : ep = 64 <;>
        simp [makeNullMove, undoNullMove, hashEP, hashCA, hashSide, hep,
          Nat.add_sub_cancel, Nat.xor_assoc, Nat.xor_comm, xor_left_comm,
          xor_xor_self]
  · decide

/-! ## Claim C4: castling-rights updates in make_move -/

/-- C4 counterexample: on a board where white's rook stands on e8 and black
still holds both castling rights (mask 3), the quiet white rook move e8-e7
succeeds and clears *black's* rights (mask becomes 0), although the claim
says the mask stays unchanged for such a move (no castling, no king or rook
leaving its *own* home square, no capture). -/
theorem castle_rights_cleared_by_foreign_rook :
    (makeMove rookE8Board rookE8Move).1 = true ∧
    rookE8Board.castle_perm = 3 ∧
    (makeMove rookE8Board rookE8Move).2.castle_perm = 0 := by decide

/-- C4 amended: after a successful `make_move` the castling-rights mask
equals the fall-through closed form: the castling special case masks the
mover's rights; then (when the mask is nonzero) the departure switch runs
the chain of cases from the moving piece's kind downwards (`wR` also runs
`bR`, `wK`, `bK`; `bR` runs `wK`, `bK`; `wK` runs `bK`), and the capture
switch runs from the captured kind downwards (`wR` also runs `bR`). -/
theorem make_move_castle_rights_fall_through (b : Board) (m : Nat)
    (h : (makeMove b m).1 = true) :
    (makeMove b m).2.castle_perm = castlePermAfter b m := by
  rw [makeMove_snd_of_true b m h]
  exact apply_cp b m

/-- Witness for the amended C4 theorem at the concrete start position and
the move e2e4. -/
theorem make_move_castle_rights_fall_through_witness :
    (makeMove startBoard (GET_MOVE 12 28 14 14 MFLAGPS)).1 = true ∧
    (makeMove startBoard (GET_MOVE 12 28 14 14 MFLAGPS)).2.castle_perm =
      castlePermAfter startBoard (GET_MOVE 12 28 14 14 MFLAGPS) :=
  ⟨by decide, make_move_castle_rights_fall_through startBoard
    (GET_MOVE 12 28 14 14 MFLAGPS) (by decide)⟩

/-! ## Claim C5: probe_table short-circuit conditions -/

/-- C5 counterexample: an UpperBound (`TFALPHA`) entry whose stored score 10
lies strictly between alpha = 0 and beta = 100, with matching key and
sufficient depth, *does* return a hit carrying the stored score (the
source's `switch` falls through into the `TFEXACT` case), although the
claim says no hit is returned in this case. -/
theorem probe_table_alpha_entry_hits_inside_window :
    probeTable ⟨[⟨5, 77, 10, 3, TFALPHA⟩], 1⟩ 0 5 2 0 0 0 100 = (true, 77, 10) := by
  decide

/-- C5 amended: with a matching key and stored depth ≥ requested depth,
`probe_table` short-circuits for *every* valid flag: an Exact entry returns
the (mate-adjusted) stored score; a LowerBound (`TFBETA`) entry returns
beta when score ≥ beta and otherwise the stored score; an UpperBound
(`TFALPHA`) entry returns alpha when score ≤ alpha, otherwise beta when
score ≥ beta, otherwise the stored score.  The stored move is handed back
in each case, and an entry with an invalid flag yields no hit. -/
theorem probe_table_fall_through (tt : TranspositionTable) (ply key depth pv0 : Nat)
    (s0 alpha beta : Int)
    (hk : (tt.t_entry.getD (key % tt.num_entries) emptyEntry).hash_key = key)
    (hd : depth ≤ (tt.t_entry.getD (key % tt.num_entries) emptyEntry).depth) :
    probeTable tt ply key depth pv0 s0 alpha beta =
      (let e := tt.t_entry.getD (key % tt.num_entries) emptyEntry
       let s := adjScore e.score ply
       if e.flag = TFALPHA then
         (true, e.move, if s ≤ alpha then alpha else if s ≥ beta then beta else s)
       else if e.flag = TFBETA then (true, e.move, if s ≥ beta then beta else s)
       else if e.flag = TFEXACT then (true, e.move, s)
       else (false, e.move, s)) := by
  unfold probeTable adjScore
  rw [if_pos hk, if_pos hd]
  dsimp only
  split_ifs <;> simp_all

/-- Witness for the amended C5 theorem on a concrete one-entry table. -/
theorem probe_table_fall_through_witness :
    probeTable ⟨[⟨5, 77, 10, 3, TFALPHA⟩], 1⟩ 0 5 2 0 0 0 100 =
      (let e := (([⟨5, 77, 10, 3, TFALPHA⟩] : List TableEntry).getD (5 % 1) emptyEntry)
       let s := adjScore e.score 0
       if e.flag = TFALPHA then
         (true, e.move, if s ≤ (0 : Int) then (0 : Int) else if s ≥ 100 then 100 else s)
       else if e.flag = TFBETA then (true, e.move, if s ≥ 100 then 100 else s)
       else if e.flag = TFEXACT then (true, e.move, s)
       else (false, e.move, s)) :=
  probe_table_fall_through ⟨[⟨5, 77, 10, 3, TFALPHA⟩], 1⟩ 0 5 2 0 0 0 100
    (by decide) (by decide)

end Cortex

/-! ## Move-generator membership lemmas and claim C10 -/
namespace Cortex

lemma GET_BB_eq (i : Nat) : GET_BB i = 2 ^ i := by
  simp [GET_BB, Nat.shiftLeft_eq]

lemma testBit_lt_of_lt_le {x i k : Nat} (hx : x < 2 ^ k) (hi : k ≤ i) :
    x.testBit i = false :=
  Nat.testBit_lt_two_pow (lt_of_lt_of_le hx (Nat.pow_le_pow_right (by norm_num) hi))

lemma testBit_flag_small {flag i : Nat} (hfl : flagOK flag) (hi : i < 16) :
    flag.testBit i = false := by
  rcases hfl with h | h | h | h <;> subst h
  · simp
  · rw [show MFLAGEP = 2 ^ 16 by norm_num [MFLAGEP], Nat.testBit_two_pow]
    simp; omega
  · rw [show MFLAGPS = 2 ^ 21 by norm_num [MFLAGPS], Nat.testBit_two_pow]
    simp; omega
  · rw [show MFLAGCA = 2 ^ 22 by norm_num [MFLAGCA], Nat.testBit_two_pow]
    simp; omega

lemma testBit_GET_MOVE (dep dst cap prom flag i : Nat) :
    (GET_MOVE dep dst cap prom flag).testBit i =
      (dep.testBit i || (decide (6 ≤ i) && dst.testBit (i - 6)) ||
       (decide (12 ≤ i) && cap.testBit (i - 12)) ||
       (decide (17 ≤ i) && prom.testBit (i - 17)) || flag.testBit i) := by
  simp [GET_MOVE, Nat.testBit_or, Nat.testBit_shiftLeft]

lemma DEP_CELL_GET_MOVE {dep dst cap prom flag : Nat} (hdep : dep < 64)
    (hfl : flagOK flag) :
    DEP_CELL (GET_MOVE dep dst cap prom flag) = dep := by
  apply Nat.eq_of_testBit_eq
  intro i
  have h63 : (63 : Nat) = 2 ^ 6 - 1 := by norm_num
  simp only [DEP_CELL, h63, Nat.and_pow_two_sub_one_eq_mod, Nat.testBit_mod_two_pow,
    testBit_GET_MOVE]
  by_cases hi : i < 6
  · simp [show ¬ 6 ≤ i by omega, show ¬ 12 ≤ i by omega, show ¬ 17 ≤ i by omega,
      testBit_flag_small (i := i) hfl (by omega), hi]
  · simp [hi, testBit_lt_of_lt_le (i := i) (show dep < 2 ^ 6 by simpa using hdep) (by omega)]

end Cortex
namespace Cortex

lemma DST_CELL_GET_MOVE {dep dst cap prom flag : Nat} (hdep : dep < 64)
    (hdst : dst < 64) (hfl : flagOK flag) :
    DST_CELL (GET_MOVE dep dst cap prom flag) = dst := by
  apply Nat.eq_of_testBit_eq
  intro i
  have h63 : (63 : Nat) = 2 ^ 6 - 1 := by norm_num
  simp only [DST_CELL, h63, Nat.and_pow_two_sub_one_eq_mod, Nat.testBit_mod_two_pow,
    Nat.testBit_shiftRight, testBit_GET_MOVE]
  by_cases hi : i < 6
  · simp [hi, show (6 : Nat) ≤ 6 + i by omega, Nat.add_sub_cancel_left,
      show ¬ 12 ≤ 6 + i by omega, show ¬ 17 ≤ 6 + i by omega,
      testBit_flag_small (i := 6 + i) hfl (by omega),
      testBit_lt_of_lt_le (i := 6 + i) (show dep < 2 ^ 6 by simpa using hdep) (by omega)]
  · simp [hi, testBit_lt_of_lt_le (i := i) (show dst < 2 ^ 6 by simpa using hdst) (by omega)]

lemma CAPTURED_GET_MOVE {dep dst cap prom flag : Nat} (hdep : dep < 64)
    (hdst : dst < 64) (hcap : cap < 16) (hfl : flagOK flag) :
    CAPTURED (GET_MOVE dep dst cap prom flag) = cap := by
  apply Nat.eq_of_testBit_eq
  intro i
  have h15 : (15 : Nat) = 2 ^ 4 - 1 := by norm_num
  simp only [CAPTURED, h15, Nat.and_pow_two_sub_one_eq_mod, Nat.testBit_mod_two_pow,
    Nat.testBit_shiftRight, testBit_GET_MOVE]
  by_cases hi : i < 4
  · simp [hi, show (6 : Nat) ≤ 12 + i by omega, show (12 : Nat) ≤ 12 + i by omega,
      show ¬ 17 ≤ 12 + i by omega, Nat.add_sub_cancel_left,
      show 12 + i - 6 = 6 + i by omega,
      testBit_flag_small (i := 12 + i) hfl (by omega),
      testBit_lt_of_lt_le (i := 12 + i) (show dep < 2 ^ 6 by simpa using hdep) (by omega),
      testBit_lt_of_lt_le (i := 6 + i) (show dst < 2 ^ 6 by simpa using hdst) (by omega)]
  · simp [hi, testBit_lt_of_lt_le (i := i) (show cap < 2 ^ 4 by simpa using hcap) (by omega)]

lemma PROMOTED_GET_MOVE {dep dst cap prom flag : Nat} (hdep : dep < 64)
    (hdst : dst < 64) (hcap : cap < 16) (hprom : prom < 16) (hfl : flagOK flag) :
    PROMOTED (GET_MOVE dep dst cap prom flag) = prom := by
  apply Nat.eq_of_testBit_eq
  intro i
  have h15 : (15 : Nat) = 2 ^ 4 - 1 := by norm_num
  simp only [PROMOTED, h15, Nat.and_pow_two_sub_one_eq_mod, Nat.testBit_mod_two_pow,
    Nat.testBit_shiftRight, testBit_GET_MOVE]
  by_cases hi : i < 4
  · have hf : flag.testBit (17 + i) = false := by
      rcases hfl with h | h | h | h <;> subst h
      · simp
      · rw [show MFLAGEP = 2 ^ 16 by norm_num [MFLAGEP], Nat.testBit_two_pow]
        simp; omega
      · rw [show MFLAGPS = 2 ^ 21 by norm_num [MFLAGPS], Nat.testBit_two_pow]
        simp; omega
      · rw [show MFLAGCA = 2 ^ 22 by norm_num [MFLAGCA], Nat.testBit_two_pow]
        simp; omega
    simp [hi, show (6 : Nat) ≤ 17 + i by omega, show (12 : Nat) ≤ 17 + i by omega,
      show (17 : Nat) ≤ 17 + i by omega, Nat.add_sub_cancel_left,
      show 17 + i - 6 = 11 + i by omega, show 17 + i - 12 = 5 + i by omega, hf,
      testBit_lt_of_lt_le (i := 17 + i) (show dep < 2 ^ 6 by simpa using hdep) (by omega),
      testBit_lt_of_lt_le (i := 11 + i) (show dst < 2 ^ 6 by simpa using hdst) (by omega),
      testBit_lt_of_lt_le (i := 5 + i) (show cap < 2 ^ 4 by simpa using hcap) (by omega)]
  · simp [hi, testBit_lt_of_lt_le (i := i) (show prom < 2 ^ 4 by simpa using hprom) (by omega)]

lemma IS_ENPAS_eq_testBit (m : Nat) : IS_ENPAS_CAP m = m.testBit 16 := by
  unfold IS_ENPAS_CAP
  rw [show (0x10000 : Nat) = 2 ^ 16 by norm_num, Nat.and_two_pow]
  cases h : m.testBit 16 <;> simp [h]

lemma IS_PSTR_eq_testBit (m : Nat) : IS_PSTR m = m.testBit 21 := by
  unfold IS_PSTR
  rw [show (0x200000 : Nat) = 2 ^ 21 by norm_num, Nat.and_two_pow]
  cases h : m.testBit 21 <;> simp [h]

lemma IS_CAS_eq_testBit (m : Nat) : IS_CAS m = m.testBit 22 := by
  unfold IS_CAS
  rw [show (0x400000 : Nat) = 2 ^ 22 by norm_num, Nat.and_two_pow]
  cases h : m.testBit 22 <;> simp [h]

lemma testBit_GET_MOVE_high {dep dst cap prom flag : Nat} (hdep : dep < 64)
    (hdst : dst < 64) (hcap : cap < 16) (hprom : prom < 16) (hfl : flagOK flag)
    {i : Nat} (hi : 21 ≤ i) :
    (GET_MOVE dep dst cap prom flag).testBit i = flag.testBit i := by
  simp [testBit_GET_MOVE, show (6:Nat) ≤ i by omega, show (12:Nat) ≤ i by omega,
    show (17:Nat) ≤ i by omega,
    testBit_lt_of_lt_le (i := i) (show dep < 2 ^ 6 by simpa using hdep) (by omega),
    testBit_lt_of_lt_le (i := i - 6) (show dst < 2 ^ 6 by simpa using hdst) (by omega),
    testBit_lt_of_lt_le (i := i - 12) (show cap < 2 ^ 4 by simpa using hcap) (by omega),
    testBit_lt_of_lt_le (i := i - 17) (show prom < 2 ^ 4 by simpa using hprom) (by omega)]

lemma testBit_GET_MOVE_16 {dep dst cap prom flag : Nat} (hdep : dep < 64)
    (hdst : dst < 64) (hcap : cap < 16) (hfl : flagOK flag) :
    (GET_MOVE dep dst cap prom flag).testBit 16 = flag.testBit 16 := by
  simp [testBit_GET_MOVE,
    testBit_lt_of_lt_le (i := 16) (show dep < 2 ^ 6 by simpa using hdep) (by omega),
    testBit_lt_of_lt_le (i := 10) (show dst < 2 ^ 6 by simpa using hdst) (by omega),
    testBit_lt_of_lt_le (i := 4) (show cap < 2 ^ 4 by simpa using hcap) (by omega)]

lemma IS_ENPAS_GET_MOVE {dep dst cap prom flag : Nat} (hdep : dep < 64)
    (hdst : dst < 64) (hcap : cap < 16) (hfl : flagOK flag) :
    IS_ENPAS_CAP (GET_MOVE dep dst cap prom flag) = (flag == MFLAGEP) := by
  rw [IS_ENPAS_eq_testBit, testBit_GET_MOVE_16 hdep hdst hcap hfl]
  rcases hfl with h | h | h | h <;> subst h <;> decide

lemma IS_PSTR_GET_MOVE {dep dst cap prom flag : Nat} (hdep : dep < 64)
    (hdst : dst < 64) (hcap : cap < 16) (hprom : prom < 16) (hfl : flagOK flag) :
    IS_PSTR (GET_MOVE dep dst cap prom flag) = (flag == MFLAGPS) := by
  rw [IS_PSTR_eq_testBit, testBit_GET_MOVE_high hdep hdst hcap hprom hfl (by omega)]
  rcases hfl with h | h | h | h <;> subst h <;> decide

lemma IS_CAS_GET_MOVE {dep dst cap prom flag : Nat} (hdep : dep < 64)
    (hdst : dst < 64) (hcap : cap < 16) (hprom : prom < 16) (hfl : flagOK flag) :
    IS_CAS (GET_MOVE dep dst cap prom flag) = (flag == MFLAGCA) := by
  rw [IS_CAS_eq_testBit, testBit_GET_MOVE_high hdep hdst hcap hprom hfl (by omega)]
  rcases hfl with h | h | h | h <;> subst h <;> decide

end Cortex
namespace Cortex

lemma lsbAux_le (f n : Nat) : lsbAux f n ≤ f := by
  induction f generalizing n with
  | zero => simp [lsbAux]
  | succ k ih =>
    unfold lsbAux
    split
    · omega
    · have := ih (n / 2)
      omega

lemma lsbAux_lt {f n : Nat} (h0 : n ≠ 0) (h : n < 2 ^ f) : lsbAux f n < f := by
  induction f generalizing n with
  | zero => omega
  | succ k ih =>
    unfold lsbAux
    split
    · omega
    · rename_i hodd
      have hne : n / 2 ≠ 0 := by omega
      have hlt : n / 2 < 2 ^ k := by
        rw [pow_succ] at h
        omega
      have := ih hne hlt
      omega

lemma popBit_fst_le {n : Nat} : (POP_BIT n).1 ≤ 64 := by
  simp only [POP_BIT, lsbIdx]
  exact lsbAux_le 64 n

lemma popBit_fst_lt {n : Nat} (h0 : n ≠ 0) (h : n < 2 ^ 64) : (POP_BIT n).1 < 64 :=
  lsbAux_lt h0 h

lemma popBit_snd_le {n : Nat} (h : n ≤ 2 ^ 64) : (POP_BIT n).2 ≤ 2 ^ 64 := by
  rcases Nat.lt_or_ge n (2 ^ 64) with hlt | hge
  · rcases eq_or_ne n 0 with rfl | h0
    · simp [POP_BIT, GET_BB_eq, lsbIdx]
      norm_num [lsbAux]
    · have h1 := popBit_fst_lt h0 hlt
      have : (POP_BIT n).2 < 2 ^ 64 := by
        simp only [POP_BIT, GET_BB_eq] at h1 ⊢
        exact Nat.xor_lt_two_pow hlt
          (Nat.pow_lt_pow_right (by norm_num) h1)
      omega
  · have hn : n = 2 ^ 64 := by omega
    subst hn
    simp only [POP_BIT, GET_BB_eq, lsbIdx]
    rw [show lsbAux 64 (2 ^ 64) = 64 from by decide]
    simp

end Cortex
namespace Cortex

lemma mem_bitsAux_le {f : Nat} : ∀ {n : Nat}, n ≤ 2 ^ 64 → ∀ j ∈ bitsAux f n, j ≤ 64 := by
  induction f with
  | zero => intro n _ j hj; simp [bitsAux] at hj
  | succ k ih =>
    intro n hn j hj
    unfold bitsAux at hj
    split at hj
    · simp at hj
    · rcases List.mem_cons.mp hj with rfl | hj
      · exact popBit_fst_le
      · exact ih (popBit_snd_le hn) j hj

lemma mem_bits64_le {n : Nat} (hn : n ≤ 2 ^ 64) : ∀ j ∈ bits64 n, j ≤ 64 :=
  mem_bitsAux_le hn

lemma mem_bitsAux_lt {f : Nat} : ∀ {n : Nat}, n < 2 ^ 64 → ∀ j ∈ bitsAux f n, j < 64 := by
  induction f with
  | zero => intro n _ j hj; simp [bitsAux] at hj
  | succ k ih =>
    intro n hn j hj
    unfold bitsAux at hj
    split at hj
    · simp at hj
    · rename_i h0
      rcases List.mem_cons.mp hj with rfl | hj
      · exact popBit_fst_lt h0 hn
      · refine ih ?_ j hj
        have h1 := popBit_fst_lt h0 hn
        simp only [POP_BIT, GET_BB_eq]
        exact Nat.xor_lt_two_pow hn (Nat.pow_lt_pow_right (by norm_num) h1)

lemma mem_bits64_lt {n : Nat} (hn : n < 2 ^ 64) : ∀ j ∈ bits64 n, j < 64 :=
  mem_bitsAux_lt hn

lemma mem_popListAux_le {k : Nat} : ∀ {n : Nat}, n ≤ 2 ^ 64 →
    ∀ j ∈ (popListAux k n).1, j ≤ 64 := by
  induction k with
  | zero => intro n _ j hj; simp [popListAux] at hj
  | succ c ih =>
    intro n hn j hj
    unfold popListAux at hj
    rcases List.mem_cons.mp hj with rfl | hj
    · exact popBit_fst_le
    · exact ih (popBit_snd_le hn) j hj

lemma getD_lt_of_forall {l : List Nat} {c d : Nat} (hl : ∀ x ∈ l, x < c)
    (hd : d < c) (i : Nat) : l.getD i d < c := by
  rcases Nat.lt_or_ge i l.length with hi | hi
  · rw [List.getD_eq_getElem l d hi]
    exact hl _ (List.getElem_mem hi)
  · rw [List.getD_eq_default l d hi]
    exact hd

end Cortex
namespace Cortex

lemma captured_quiet_not_king {dep dst prom flag : Nat} (hdep : dep ≤ 64)
    (hdst : dst ≤ 64) (hfl : flagOK flag) :
    noKingCap (GET_MOVE dep dst 14 prom flag) := by
  have h13 : (GET_MOVE dep dst 14 prom flag).testBit 13 = true := by
    simp [testBit_GET_MOVE,
      testBit_lt_of_lt_le (i := 13) (show dep < 2 ^ 7 by omega) (by omega),
      testBit_lt_of_lt_le (i := 7) (show dst < 2 ^ 7 by omega) (by omega),
      testBit_flag_small (i := 13) hfl (by omega)]
    decide
  have h14 : (GET_MOVE dep dst 14 prom flag).testBit 14 = true := by
    simp [testBit_GET_MOVE,
      testBit_lt_of_lt_le (i := 14) (show dep < 2 ^ 7 by omega) (by omega),
      testBit_lt_of_lt_le (i := 8) (show dst < 2 ^ 7 by omega) (by omega),
      testBit_flag_small (i := 14) hfl (by omega)]
    decide
  have hc1 : (CAPTURED (GET_MOVE dep dst 14 prom flag)).testBit 1 = true := by
    simp only [CAPTURED, show (15 : Nat) = 2 ^ 4 - 1 by norm_num,
      Nat.and_pow_two_sub_one_eq_mod, Nat.testBit_mod_two_pow,
      Nat.testBit_shiftRight]
    simpa using h13
  have hc2 : (CAPTURED (GET_MOVE dep dst 14 prom flag)).testBit 2 = true := by
    simp only [CAPTURED, show (15 : Nat) = 2 ^ 4 - 1 by norm_num,
      Nat.and_pow_two_sub_one_eq_mod, Nat.testBit_mod_two_pow,
      Nat.testBit_shiftRight]
    simpa using h14
  constructor
  · intro h
    rw [h] at hc1
    simp [Nat.testBit] at hc1
  · intro h
    rw [h] at hc2
    simp [Nat.testBit] at hc2

lemma mem_pushQuiet {me : MoveEntry} {ml : MoveList} {b : Board} {mv : Nat}
    (h : me ∈ (pushQuietMove ml mv b).list) : me ∈ ml.list ∨ me.move = mv := by
  unfold pushQuietMove at h
  split_ifs at h <;> simp only [List.mem_append, List.mem_singleton] at h <;>
    rcases h with h | h <;> simp [h]

lemma mem_pushCapture {me : MoveEntry} {ml : MoveList} {b : Board} {mv : Nat}
    (h : me ∈ (pushCaptureMove ml mv b).list) :
    me ∈ ml.list ∨ (me.move = mv ∧ noKingCap mv) := by
  unfold pushCaptureMove at h
  dsimp only at h
  split_ifs at h with hk
  · exact Or.inl h
  · simp only [List.mem_append, List.mem_singleton] at h
    rcases h with h | h
    · exact Or.inl h
    · refine Or.inr ⟨by simp [h], ?_, ?_⟩ <;> intro hc <;> simp [hc] at hk

lemma mem_pushEnp {me : MoveEntry} {ml : MoveList} {mv : Nat}
    (h : me ∈ (pushEnpCaptureMove ml mv).list) : me ∈ ml.list ∨ me.move = mv := by
  unfold pushEnpCaptureMove at h
  simp only [List.mem_append, List.mem_singleton] at h
  rcases h with h | h <;> simp [h]

lemma mem_pushCastle {me : MoveEntry} {ml : MoveList} {mv : Nat}
    (h : me ∈ (pushCastlingMove ml mv).list) : me ∈ ml.list ∨ me.move = mv := by
  unfold pushCastlingMove at h
  simp only [List.mem_append, List.mem_singleton] at h
  rcases h with h | h <;> simp [h]

lemma quiet_fold_mem {b : Board} {sq : Nat} {idxs : List Nat} {ml : MoveList}
    {me : MoveEntry} (hsq : sq ≤ 64) (hidx : ∀ j ∈ idxs, j ≤ 64)
    (h : me ∈ (idxs.foldl (fun ml i => pushQuietMove ml (GET_MOVE sq i 14 14 0) b) ml).list) :
    me ∈ ml.list ∨ noKingCap me.move := by
  induction idxs generalizing ml with
  | nil => exact Or.inl h
  | cons x xs ih =>
    simp only [List.foldl_cons] at h
    rcases ih (fun j hj => hidx j (List.mem_cons_of_mem _ hj)) h with h' | h'
    · rcases mem_pushQuiet h' with h'' | h''
      · exact Or.inl h''
      · right
        rw [h'']
        exact captured_quiet_not_king hsq (hidx x (List.mem_cons_self x xs)) (Or.inl rfl)
    · exact Or.inr h'

end Cortex
namespace Cortex

lemma cb_lt {b : Board} (hcb : ∀ x ∈ b.chessboard, x < 2 ^ 64) (i : Nat) :
    cb b i < 2 ^ 64 :=
  getD_lt_of_forall hcb (by norm_num) i

lemma nthBB_BFILE_lt (i : Nat) : nthBB B_FILE i < 2 ^ 64 :=
  getD_lt_of_forall (by decide) (by norm_num) i

lemma nthBB_BRANK_lt (i : Nat) : nthBB B_RANK i < 2 ^ 64 :=
  getD_lt_of_forall (by decide) (by norm_num) i

lemma fileBand_lt (lo hi : Nat) : fileBand lo hi < 2 ^ 64 := by
  unfold fileBand
  have : ∀ (l : List Nat) (acc : Nat), acc < 2 ^ 64 →
      (l.foldl (fun acc f => if lo ≤ f ∧ f ≤ hi then acc ||| nthBB B_FILE f else acc) acc) <
        2 ^ 64 := by
    intro l
    induction l with
    | nil => intro acc h; exact h
    | cons x xs ih =>
      intro acc h
      simp only [List.foldl_cons]
      apply ih
      split
      · exact Nat.or_lt_two_pow h (nthBB_BFILE_lt x)
      · exact h
  exact this _ 0 (by norm_num)

lemma fillRay_lt {ray occ : Nat} (hray : ray < 2 ^ 64) (ks : List Nat) (up : Bool) :
    fillRay ray occ ks up < 2 ^ 64 := by
  unfold fillRay
  exact Nat.xor_lt_two_pow (Nat.lt_of_le_of_lt Nat.and_le_right hray) hray

lemma noKingCap_of_eq {me : MoveEntry} {mv : Nat}
    (h : me.move = mv ∧ noKingCap mv) : noKingCap me.move := h.1 ▸ h.2

lemma mem_genRayUp {b : Board} {gen_side : Bool} {sq ray : Nat} {ks : List Nat}
    {ml : MoveList} {me : MoveEntry} (hsq : sq ≤ 64) (hray : ray < 2 ^ 64)
    (h : me ∈ (genRayUp b gen_side sq ray ks ml).list) :
    me ∈ ml.list ∨ noKingCap me.move := by
  unfold genRayUp at h
  dsimp only at h
  have hb : ∀ k : Nat, ∀ j ∈ (popListAux k (fillRay ray (cb b 12 ||| cb b 13) ks true)).1,
      j ≤ 64 := fun k => mem_popListAux_le (le_of_lt (fillRay_lt hray ks true))
  split_ifs at h <;>
    first
    | exact (quiet_fold_mem hsq (hb _) h).imp id id
    | · rcases mem_pushCapture h with h2 | h2
        · exact (quiet_fold_mem hsq (hb _) h2).imp id id
        · exact Or.inr (noKingCap_of_eq h2)

lemma mem_genRayDown {b : Board} {gen_side : Bool} {sq ray : Nat} {ks : List Nat}
    {ml : MoveList} {me : MoveEntry} (hsq : sq ≤ 64) (hray : ray < 2 ^ 64)
    (h : me ∈ (genRayDown b gen_side sq ray ks ml).list) :
    me ∈ ml.list ∨ noKingCap me.move := by
  unfold genRayDown at h
  dsimp only at h
  have hfill : fillRay ray (cb b 12 ||| cb b 13) ks false < 2 ^ 64 :=
    fillRay_lt hray ks false
  have hb : ∀ k : Nat, ∀ j ∈ (popListAux k (fillRay ray (cb b 12 ||| cb b 13) ks false)).1,
      j ≤ 64 := fun k => mem_popListAux_le (le_of_lt hfill)
  have hb2 : ∀ k : Nat,
      ∀ j ∈ (popListAux k (POP_BIT (fillRay ray (cb b 12 ||| cb b 13) ks false)).2).1,
      j ≤ 64 := fun k => mem_popListAux_le (popBit_snd_le (le_of_lt hfill))
  split_ifs at h <;>
    first
    | exact (quiet_fold_mem hsq (hb _) h).imp id id
    | · rcases quiet_fold_mem hsq (hb2 _) h with h2 | h2
        · first
          | exact Or.inl h2
          | · rcases mem_pushCapture h2 with h3 | h3
              · exact Or.inl h3
              · exact Or.inr (noKingCap_of_eq h3)
        · exact Or.inr h2

end Cortex
namespace Cortex

lemma fold_mem_step {β : Type} {body : MoveList → β → MoveList} {l : List β}
    {ml : MoveList} {me : MoveEntry}
    (hb : ∀ ml' (me' : MoveEntry) x, x ∈ l → me' ∈ (body ml' x).list →
      me' ∈ ml'.list ∨ noKingCap me'.move)
    (h : me ∈ (l.foldl body ml).list) : me ∈ ml.list ∨ noKingCap me.move := by
  induction l generalizing ml with
  | nil => exact Or.inl h
  | cons x xs ih =>
    simp only [List.foldl_cons] at h
    rcases ih (fun ml' me' y hy => hb ml' me' y (List.mem_cons_of_mem _ hy)) h with h2 | h2
    · exact hb ml me x (List.mem_cons_self x xs) h2
    · exact Or.inr h2

lemma mem_genRookMoves {u : Nat} {gen_side : Bool} {ml : MoveList} {b : Board}
    {me : MoveEntry} (hu : u < 2 ^ 64)
    (h : me ∈ (genRookMoves u gen_side ml b).list) :
    me ∈ ml.list ∨ noKingCap me.move := by
  unfold genRookMoves at h
  refine fold_mem_step ?_ h
  intro ml' me' sq hsq hm
  have hsq64 : sq ≤ 64 := le_of_lt (mem_bits64_lt hu sq hsq)
  rcases mem_genRayDown hsq64
      (Nat.lt_of_le_of_lt Nat.and_le_right (nthBB_BRANK_lt _)) hm with h2 | h2
  · rcases mem_genRayUp hsq64
        (Nat.lt_of_le_of_lt Nat.and_le_right (nthBB_BRANK_lt _)) h2 with h3 | h3
    · rcases mem_genRayDown hsq64
          (Nat.lt_of_le_of_lt Nat.and_le_right (nthBB_BFILE_lt _)) h3 with h4 | h4
      · rcases mem_genRayUp hsq64
            (Nat.lt_of_le_of_lt Nat.and_le_right (nthBB_BFILE_lt _)) h4 with h5 | h5
        · exact Or.inl h5
        · exact Or.inr h5
      · exact Or.inr h4
    · exact Or.inr h3
  · exact Or.inr h2

lemma mem_genBishopMoves {u : Nat} {gen_side : Bool} {ml : MoveList} {b : Board}
    {me : MoveEntry} (hu : u < 2 ^ 64)
    (h : me ∈ (genBishopMoves u gen_side ml b).list) :
    me ∈ ml.list ∨ noKingCap me.move := by
  unfold genBishopMoves at h
  refine fold_mem_step ?_ h
  intro ml' me' sq hsq hm
  have hsq64 : sq ≤ 64 := le_of_lt (mem_bits64_lt hu sq hsq)
  rcases mem_genRayDown hsq64
      (Nat.lt_of_le_of_lt Nat.and_le_right (fileBand_lt _ _)) hm with h2 | h2
  · rcases mem_genRayDown hsq64
        (Nat.lt_of_le_of_lt Nat.and_le_right (fileBand_lt _ _)) h2 with h3 | h3
    · rcases mem_genRayUp hsq64
          (Nat.lt_of_le_of_lt Nat.and_le_right (fileBand_lt _ _)) h3 with h4 | h4
      · rcases mem_genRayUp hsq64
            (Nat.lt_of_le_of_lt Nat.and_le_right (fileBand_lt _ _)) h4 with h5 | h5
        · exact Or.inl h5
        · exact Or.inr h5
      · exact Or.inr h4
    · exact Or.inr h3
  · exact Or.inr h2

lemma mem_genRayUpCap {b : Board} {gen_side : Bool} {sq ray : Nat} {ks : List Nat}
    {ml : MoveList} {me : MoveEntry}
    (h : me ∈ (genRayUpCap b gen_side sq ray ks ml).list) :
    me ∈ ml.list ∨ noKingCap me.move := by
  unfold genRayUpCap at h
  dsimp only at h
  split_ifs at h <;>
    first
    | exact Or.inl h
    | · rcases mem_pushCapture h with h2 | h2
        · exact Or.inl h2
        · exact Or.inr (noKingCap_of_eq h2)

lemma mem_genRayDownCap {b : Board} {gen_side : Bool} {sq ray : Nat} {ks : List Nat}
    {ml : MoveList} {me : MoveEntry}
    (h : me ∈ (genRayDownCap b gen_side sq ray ks ml).list) :
    me ∈ ml.list ∨ noKingCap me.move := by
  unfold genRayDownCap at h
  dsimp only at h
  split_ifs at h <;>
    first
    | exact Or.inl h
    | · rcases mem_pushCapture h with h2 | h2
        · exact Or.inl h2
        · exact Or.inr (noKingCap_of_eq h2)

lemma mem_genRookCapMoves {u : Nat} {gen_side : Bool} {ml : MoveList} {b : Board}
    {me : MoveEntry} (h : me ∈ (genRookCapMoves u gen_side ml b).list) :
    me ∈ ml.list ∨ noKingCap me.move := by
  unfold genRookCapMoves at h
  refine fold_mem_step ?_ h
  intro ml' me' sq _ hm
  rcases mem_genRayDownCap hm with h2 | h2
  · rcases mem_genRayUpCap h2 with h3 | h3
    · rcases mem_genRayDownCap h3 with h4 | h4
      · rcases mem_genRayUpCap h4 with h5 | h5
        · exact Or.inl h5
        · exact Or.inr h5
      · exact Or.inr h4
    · exact Or.inr h3
  · exact Or.inr h2

lemma mem_genBishopCapMoves {u : Nat} {gen_side : Bool} {ml : MoveList} {b : Board}
    {me : MoveEntry} (h : me ∈ (genBishopCapMoves u gen_side ml b).list) :
    me ∈ ml.list ∨ noKingCap me.move := by
  unfold genBishopCapMoves at h
  refine fold_mem_step ?_ h
  intro ml' me' sq _ hm
  rcases mem_genRayDownCap hm with h2 | h2
  · rcases mem_genRayDownCap h2 with h3 | h3
    · rcases mem_genRayUpCap h3 with h4 | h4
      · rcases mem_genRayUpCap h4 with h5 | h5
        · exact Or.inl h5
        · exact Or.inr h5
      · exact Or.inr h4
    · exact Or.inr h3
  · exact Or.inr h2

end Cortex
namespace Cortex

lemma mem_genKnightMoves {u : Nat} {gen_side : Bool} {ml : MoveList} {b : Board}
    {me : MoveEntry} (hu : u < 2 ^ 64) (hcb : ∀ x ∈ b.chessboard, x < 2 ^ 64)
    (h : me ∈ (genKnightMoves u gen_side ml b).list) :
    me ∈ ml.list ∨ noKingCap me.move := by
  unfold genKnightMoves at h
  refine fold_mem_step ?_ h
  intro ml' me' sq hsq hm
  have hsq64 : sq ≤ 64 := le_of_lt (mem_bits64_lt hu sq hsq)
  dsimp only at hm
  have hfree : (0xFFFFFFFFFFFFFFFF ^^^ cb b 12) &&& (0xFFFFFFFFFFFFFFFF ^^^ cb b 13) <
      2 ^ 64 :=
    Nat.lt_of_le_of_lt Nat.and_le_left
      (Nat.xor_lt_two_pow (by norm_num) (cb_lt hcb 12))
  rcases quiet_fold_mem hsq64
      (fun j hj => le_of_lt (mem_bits64_lt
        (Nat.lt_of_le_of_lt Nat.and_le_right hfree) j hj)) hm with h2 | h2
  · refine (fold_mem_step ?_ h2).imp id id
    intro ml2 me2 j _ hm2
    rcases mem_pushCapture hm2 with h3 | h3
    · exact Or.inl h3
    · exact Or.inr (noKingCap_of_eq h3)
  · exact Or.inr h2

lemma mem_genKnightCapMoves {u : Nat} {gen_side : Bool} {ml : MoveList} {b : Board}
    {me : MoveEntry} (h : me ∈ (genKnightCapMoves u gen_side ml b).list) :
    me ∈ ml.list ∨ noKingCap me.move := by
  unfold genKnightCapMoves at h
  refine fold_mem_step ?_ h
  intro ml' me' sq _ hm
  refine (fold_mem_step ?_ hm).imp id id
  intro ml2 me2 j _ hm2
  rcases mem_pushCapture hm2 with h3 | h3
  · exact Or.inl h3
  · exact Or.inr (noKingCap_of_eq h3)

lemma captured_enp6_not_king {dep dst prom flag : Nat} (hdep : dep ≤ 64)
    (hdst : dst ≤ 64) (hfl : flagOK flag) :
    noKingCap (GET_MOVE dep dst 6 prom flag) := by
  have h13 : (GET_MOVE dep dst 6 prom flag).testBit 13 = true := by
    simp [testBit_GET_MOVE,
      testBit_lt_of_lt_le (i := 13) (show dep < 2 ^ 7 by omega) (by omega),
      testBit_lt_of_lt_le (i := 7) (show dst < 2 ^ 7 by omega) (by omega),
      testBit_flag_small (i := 13) hfl (by omega)]
    decide
  have h14 : (GET_MOVE dep dst 6 prom flag).testBit 14 = true := by
    simp [testBit_GET_MOVE,
      testBit_lt_of_lt_le (i := 14) (show dep < 2 ^ 7 by omega) (by omega),
      testBit_lt_of_lt_le (i := 8) (show dst < 2 ^ 7 by omega) (by omega),
      testBit_flag_small (i := 14) hfl (by omega)]
    decide
  have hc1 : (CAPTURED (GET_MOVE dep dst 6 prom flag)).testBit 1 = true := by
    simp only [CAPTURED, show (15 : Nat) = 2 ^ 4 - 1 by norm_num,
      Nat.and_pow_two_sub_one_eq_mod, Nat.testBit_mod_two_pow,
      Nat.testBit_shiftRight]
    simpa using h13
  have hc2 : (CAPTURED (GET_MOVE dep dst 6 prom flag)).testBit 2 = true := by
    simp only [CAPTURED, show (15 : Nat) = 2 ^ 4 - 1 by norm_num,
      Nat.and_pow_two_sub_one_eq_mod, Nat.testBit_mod_two_pow,
      Nat.testBit_shiftRight]
    simpa using h14
  constructor
  · intro h
    rw [h] at hc1
    simp [Nat.testBit] at hc1
  · intro h
    rw [h] at hc2
    simp [Nat.testBit] at hc2

lemma captured_enp0_not_king {dep dst prom flag : Nat} (hdep : dep ≤ 64)
    (hdst : dst ≤ 64) (hfl : flagOK flag) :
    noKingCap (GET_MOVE dep dst 0 prom flag) := by
  have h13 : (GET_MOVE dep dst 0 prom flag).testBit 13 = false := by
    simp [testBit_GET_MOVE,
      testBit_lt_of_lt_le (i := 13) (show dep < 2 ^ 7 by omega) (by omega),
      testBit_lt_of_lt_le (i := 7) (show dst < 2 ^ 7 by omega) (by omega),
      testBit_flag_small (i := 13) hfl (by omega)]
  have h14 : (GET_MOVE dep dst 0 prom flag).testBit 14 = false := by
    simp [testBit_GET_MOVE,
      testBit_lt_of_lt_le (i := 14) (show dep < 2 ^ 7 by omega) (by omega),
      testBit_lt_of_lt_le (i := 8) (show dst < 2 ^ 7 by omega) (by omega),
      testBit_flag_small (i := 14) hfl (by omega)]
  have hc1 : (CAPTURED (GET_MOVE dep dst 0 prom flag)).testBit 1 = false := by
    simp only [CAPTURED, show (15 : Nat) = 2 ^ 4 - 1 by norm_num,
      Nat.and_pow_two_sub_one_eq_mod, Nat.testBit_mod_two_pow,
      Nat.testBit_shiftRight]
    simpa using h13
  have hc2 : (CAPTURED (GET_MOVE dep dst 0 prom flag)).testBit 2 = false := by
    simp only [CAPTURED, show (15 : Nat) = 2 ^ 4 - 1 by norm_num,
      Nat.and_pow_two_sub_one_eq_mod, Nat.testBit_mod_two_pow,
      Nat.testBit_shiftRight]
    simpa using h14
  constructor
  · intro h
    rw [h] at hc2
    simp [Nat.testBit] at hc2
  · intro h
    rw [h] at hc1
    simp [Nat.testBit] at hc1

lemma mem_genWPawnCapDir {b : Board} {sq sh : Nat} {ml : MoveList} {me : MoveEntry}
    (hsq : sq < 64) (h : me ∈ (genWPawnCapDir b sq sh ml).list) :
    me ∈ ml.list ∨ noKingCap me.move := by
  unfold genWPawnCapDir at h
  dsimp only at h
  split_ifs at h <;>
    first
    | exact Or.inl h
    | · rcases mem_pushEnp h with h4 | h4
        · exact Or.inl h4
        · exact Or.inr (h4 ▸ captured_enp6_not_king (le_of_lt hsq) popBit_fst_le
            (Or.inr (Or.inl rfl)))
    | · rcases mem_pushCapture h with h4 | h4
        · rcases mem_pushCapture h4 with h5 | h5
          · rcases mem_pushCapture h5 with h6 | h6
            · rcases mem_pushCapture h6 with h7 | h7
              · exact Or.inl h7
              · exact Or.inr (noKingCap_of_eq h7)
            · exact Or.inr (noKingCap_of_eq h6)
          · exact Or.inr (noKingCap_of_eq h5)
        · exact Or.inr (noKingCap_of_eq h4)
    | · rcases mem_pushCapture h with h4 | h4
        · exact Or.inl h4
        · exact Or.inr (noKingCap_of_eq h4)

lemma mem_genBPawnCapDir {b : Board} {sq sh : Nat} {ml : MoveList} {me : MoveEntry}
    (hsq : sq < 64) (h : me ∈ (genBPawnCapDir b sq sh ml).list) :
    me ∈ ml.list ∨ noKingCap me.move := by
  unfold genBPawnCapDir at h
  dsimp only at h
  split_ifs at h <;>
    first
    | exact Or.inl h
    | · rcases mem_pushEnp h with h4 | h4
        · exact Or.inl h4
        · exact Or.inr (h4 ▸ captured_enp0_not_king (le_of_lt hsq) popBit_fst_le
            (Or.inr (Or.inl rfl)))
    | · rcases mem_pushCapture h with h4 | h4
        · rcases mem_pushCapture h4 with h5 | h5
          · rcases mem_pushCapture h5 with h6 | h6
            · rcases mem_pushCapture h6 with h7 | h7
              · exact Or.inl h7
              · exact Or.inr (noKingCap_of_eq h7)
            · exact Or.inr (noKingCap_of_eq h6)
          · exact Or.inr (noKingCap_of_eq h5)
        · exact Or.inr (noKingCap_of_eq h4)
    | · rcases mem_pushCapture h with h4 | h4
        · exact Or.inl h4
        · exact Or.inr (noKingCap_of_eq h4)

end Cortex
namespace Cortex

lemma mem_pushQuiet_nk {me : MoveEntry} {ml : MoveList} {b : Board}
    {dep dst prom flag : Nat} (hdep : dep ≤ 64) (hdst : dst ≤ 64) (hfl : flagOK flag)
    (h : me ∈ (pushQuietMove ml (GET_MOVE dep dst 14 prom flag) b).list) :
    me ∈ ml.list ∨ noKingCap me.move :=
  (mem_pushQuiet h).imp id (fun h' => noKingCap_of_eq ⟨h', captured_quiet_not_king hdep hdst hfl⟩)

lemma mem_genPawnMoves {gen_side : Bool} {ml : MoveList} {b : Board} {me : MoveEntry}
    (hcb : ∀ x ∈ b.chessboard, x < 2 ^ 64)
    (h : me ∈ (genPawnMoves gen_side ml b).list) :
    me ∈ ml.list ∨ noKingCap me.move := by
  unfold genPawnMoves at h
  dsimp only at h
  split_ifs at h
  · refine fold_mem_step ?_ h
    intro ml' me' sq hsq hm
    have hsq64 : sq < 64 := mem_bits64_lt (cb_lt hcb 0) sq hsq
    try dsimp only at hm
    rcases mem_genWPawnCapDir hsq64 hm with h2 | h2
    · rcases mem_genWPawnCapDir hsq64 h2 with h3 | h3
      · split_ifs at h3 <;>
          repeat'
            first
            | exact Or.inl h3
            | exact Or.inr h3
            | (rcases mem_pushQuiet_nk (le_of_lt hsq64) popBit_fst_le
                (Or.inl rfl) h3 with h3 | h3)
            | (rcases mem_pushQuiet_nk (le_of_lt hsq64) popBit_fst_le
                (Or.inr (Or.inr (Or.inl rfl))) h3 with h3 | h3)
      · exact Or.inr h3
    · exact Or.inr h2
  · refine fold_mem_step ?_ h
    intro ml' me' sq hsq hm
    have hsq64 : sq < 64 := mem_bits64_lt (cb_lt hcb 6) sq hsq
    try dsimp only at hm
    rcases mem_genBPawnCapDir hsq64 hm with h2 | h2
    · rcases mem_genBPawnCapDir hsq64 h2 with h3 | h3
      · split_ifs at h3 <;>
          repeat'
            first
            | exact Or.inl h3
            | exact Or.inr h3
            | (rcases mem_pushQuiet_nk (le_of_lt hsq64) popBit_fst_le
                (Or.inl rfl) h3 with h3 | h3)
            | (rcases mem_pushQuiet_nk (le_of_lt hsq64) popBit_fst_le
                (Or.inr (Or.inr (Or.inl rfl))) h3 with h3 | h3)
      · exact Or.inr h3
    · exact Or.inr h2

lemma mem_genPawnCapMoves {gen_side : Bool} {ml : MoveList} {b : Board} {me : MoveEntry}
    (hcb : ∀ x ∈ b.chessboard, x < 2 ^ 64)
    (h : me ∈ (genPawnCapMoves gen_side ml b).list) :
    me ∈ ml.list ∨ noKingCap me.move := by
  unfold genPawnCapMoves at h
  split_ifs at h
  · refine fold_mem_step ?_ h
    intro ml' me' sq hsq hm
    have hsq64 : sq < 64 := mem_bits64_lt (cb_lt hcb 0) sq hsq
    try dsimp only at hm
    rcases mem_genWPawnCapDir hsq64 hm with h2 | h2
    · exact (mem_genWPawnCapDir hsq64 h2).imp id id
    · exact Or.inr h2
  · refine fold_mem_step ?_ h
    intro ml' me' sq hsq hm
    have hsq64 : sq < 64 := mem_bits64_lt (cb_lt hcb 6) sq hsq
    try dsimp only at hm
    rcases mem_genBPawnCapDir hsq64 hm with h2 | h2
    · exact (mem_genBPawnCapDir hsq64 h2).imp id id
    · exact Or.inr h2

lemma mem_genKingMoves {gen_side : Bool} {ml : MoveList} {b : Board} {me : MoveEntry}
    (hcb : ∀ x ∈ b.chessboard, x < 2 ^ 64)
    (h : me ∈ (genKingMoves gen_side ml b).list) :
    me ∈ ml.list ∨ noKingCap me.move := by
  unfold genKingMoves at h
  dsimp only at h
  have hidx : ∀ u : Nat, ∀ j ∈ bits64 (KING_LT u &&&
      ((M64 ^^^ cb b 12) &&& (M64 ^^^ cb b 13))), j ≤ 64 :=
    fun u j hj => le_of_lt (mem_bits64_lt (Nat.lt_of_le_of_lt Nat.and_le_right
      (Nat.lt_of_le_of_lt Nat.and_le_left
        (Nat.xor_lt_two_pow (by norm_num [M64]) (cb_lt hcb 12)))) j hj)
  split_ifs at h <;>
    repeat'
      first
      | exact Or.inr h
      | (rcases mem_pushCastle h with h | h)
      | exact Or.inr (by rw [h]; exact ⟨by decide, by decide⟩)
      | (rcases quiet_fold_mem popBit_fst_le (hidx _) h with h | h)
      | (refine (fold_mem_step ?_ h).imp id id
         intro ml2 me2 j hj hm2
         rcases mem_pushCapture hm2 with h3 | h3
         · exact Or.inl h3
         · exact Or.inr (noKingCap_of_eq h3))

lemma mem_genKingCapMoves {gen_side : Bool} {ml : MoveList} {b : Board} {me : MoveEntry}
    (h : me ∈ (genKingCapMoves gen_side ml b).list) :
    me ∈ ml.list ∨ noKingCap me.move := by
  unfold genKingCapMoves at h
  refine (fold_mem_step ?_ h).imp id id
  intro ml2 me2 j _ hm2
  rcases mem_pushCapture hm2 with h3 | h3
  · exact Or.inl h3
  · exact Or.inr (noKingCap_of_eq h3)

end Cortex
namespace Cortex

/-- **C10.** For every position whose bitboards are genuine 64-bit words, no
move returned by `gen_moves` or `gen_captures` has a captured-piece field
equal to a white king (5) or a black king (11): `push_capture_move` silently
drops any move whose capture target is a king, so the generators never emit a
king capture even when a king is en prise. -/
theorem gen_never_emits_king_capture (b : Board)
    (hcb : ∀ x ∈ b.chessboard, x < 2 ^ 64) :
    (∀ me ∈ (genMoves b).list, CAPTURED me.move ≠ 5 ∧ CAPTURED me.move ≠ 11) ∧
    (∀ me ∈ (genCaptures b).list, CAPTURED me.move ≠ 5 ∧ CAPTURED me.move ≠ 11) := by
  constructor
  · intro me h
    unfold genMoves at h
    dsimp only at h
    rcases mem_genKingMoves hcb h with h | h
    rcases mem_genPawnMoves hcb h with h | h
    rcases mem_genBishopMoves (cb_lt hcb _) h with h | h
    rcases mem_genKnightMoves (cb_lt hcb _) hcb h with h | h
    rcases mem_genRookMoves (cb_lt hcb _) h with h | h
    rcases mem_genBishopMoves (cb_lt hcb _) h with h | h
    rcases mem_genRookMoves (cb_lt hcb _) h with h | h
    · exact absurd h (List.not_mem_nil me)
    all_goals exact h
  · intro me h
    unfold genCaptures at h
    dsimp only at h
    rcases mem_genKingCapMoves h with h | h
    rcases mem_genPawnCapMoves hcb h with h | h
    rcases mem_genBishopCapMoves h with h | h
    rcases mem_genKnightCapMoves h with h | h
    rcases mem_genRookCapMoves h with h | h
    rcases mem_genBishopCapMoves h with h | h
    rcases mem_genRookCapMoves h with h | h
    · exact absurd h (List.not_mem_nil me)
    all_goals exact h

/-- Witness for C10 at the standard start position. -/
theorem gen_never_emits_king_capture_witness :
    (∀ x ∈ startBoard.chessboard, x < 2 ^ 64) ∧
    ((∀ me ∈ (genMoves startBoard).list,
        CAPTURED me.move ≠ 5 ∧ CAPTURED me.move ≠ 11) ∧
     (∀ me ∈ (genCaptures startBoard).list,
        CAPTURED me.move ≠ 5 ∧ CAPTURED me.move ≠ 11)) :=
  ⟨by decide, gen_never_emits_king_capture startBoard (by decide)⟩

end Cortex
